import Mathlib

/-!
# Verification of the rebind_router packet engine

Shallow embedding of `examples/cpp/rebind/rebind.cpp`: the bidirectional
link-layer rewriting engine that steers one application's IPv4 TCP/UDP
traffic from the default adapter onto a rebind adapter.

Frames are raw byte buffers (`List Nat`).  The C++ code accesses header
fields through reinterpreted pointers with no bounds checking; we model a
memory access outside the buffer as `Option` failure (`none` = undefined
behavior, no verdict is produced).  External collaborators that are not
part of the visible source (the connection-table lookup, the checksum
helpers of the NDIS API) are modelled as explicit parameters or, where
noted, from the specification's description.
-/

/-! ## Raw byte buffers -/

/-- A raw layer-2 frame: the byte buffer `INTERMEDIATE_BUFFER::m_IBuffer`. -/
abbrev Frame := List Nat

/-- Read one byte at offset `i`; `none` models an out-of-bounds access. -/
def readByte (f : Frame) (i : Nat) : Option Nat := f[i]?

/-- Read a 16-bit big-endian field (what `ntohs` yields on a wire field). -/
def read16 (f : Frame) (i : Nat) : Option Nat :=
  (readByte f i).bind fun hi => (readByte f (i + 1)).map fun lo => hi * 256 + lo

/-- Read `n` consecutive bytes starting at offset `i`. -/
def readBytes (f : Frame) (i : Nat) : Nat → Option (List Nat)
  | 0 => some []
  | n + 1 => (readByte f i).bind fun b => (readBytes f (i + 1) n).map fun t => b :: t

/-- Overwrite the bytes at offsets `[i, i + bs.length)` (a `memcpy` /
    struct-field store); fails if the range is not inside the buffer. -/
def writeBytes (f : Frame) (i : Nat) (bs : List Nat) : Option Frame :=
  if i + bs.length ≤ f.length then
    some (f.take i ++ bs ++ f.drop (i + bs.length))
  else none

theorem readByte_lt_length {f : Frame} {i b : Nat} (h : readByte f i = some b) :
    i < f.length := by
  by_contra hc
  push_neg at hc
  simp [readByte, List.getElem?_eq_none hc] at h

theorem readBytes_le_length {f : Frame} {n i : Nat} {l : List Nat}
    (hn : 0 < n) (h : readBytes f i n = some l) : i + n ≤ f.length := by
  induction n generalizing i l with
  | zero => omega
  | succ n ih =>
    rw [readBytes] at h
    rcases hb : readByte f i with _ | b
    · rw [hb] at h; simp at h
    · rw [hb, Option.some_bind] at h
      rcases ht : readBytes f (i + 1) n with _ | t
      · rw [ht] at h; simp at h
      · have hib := readByte_lt_length hb
        rcases Nat.eq_zero_or_pos n with h0 | hpos
        · omega
        · have := ih hpos ht
          omega

theorem readBytes_eq_drop_take {f : Frame} {n i : Nat} (h : i + n ≤ f.length) :
    readBytes f i n = some ((f.drop i).take n) := by
  induction n generalizing i with
  | zero => simp [readBytes]
  | succ n ih =>
    have hi : i < f.length := by omega
    rw [List.drop_eq_getElem_cons hi, List.take_succ_cons, readBytes, readByte,
      List.getElem?_eq_getElem hi, Option.some_bind, ih (by omega), Option.map_some']

theorem writeBytes_some {f : Frame} {i : Nat} {bs : List Nat}
    (h : i + bs.length ≤ f.length) :
    writeBytes f i bs = some (f.take i ++ bs ++ f.drop (i + bs.length)) := by
  rw [writeBytes, if_pos h]

theorem writeBytes_le {f g : Frame} {i : Nat} {bs : List Nat}
    (h : writeBytes f i bs = some g) : i + bs.length ≤ f.length := by
  by_contra hc
  rw [writeBytes, if_neg hc] at h
  cases h

theorem writeBytes_length {f g : Frame} {i : Nat} {bs : List Nat}
    (h : writeBytes f i bs = some g) : g.length = f.length := by
  have hle := writeBytes_le h
  rw [writeBytes_some hle, Option.some.injEq] at h
  subst h
  simp only [List.length_append, List.length_take, List.length_drop]
  omega

theorem readByte_writeBytes_out {f g : Frame} {i : Nat} {bs : List Nat}
    (h : writeBytes f i bs = some g) {j : Nat} (hj : j < i ∨ i + bs.length ≤ j) :
    readByte g j = readByte f j := by
  have hle := writeBytes_le h
  rw [writeBytes_some hle, Option.some.injEq] at h
  subst h
  have hti : (f.take i).length = i := by simp; omega
  rcases hj with hj | hj
  · rw [readByte, readByte, List.append_assoc, List.getElem?_append, hti, if_pos hj]
    simp [List.getElem?_take, hj]
  · rw [readByte, readByte, List.append_assoc, List.getElem?_append, hti,
      if_neg (by omega), List.getElem?_append, if_neg (by omega), List.getElem?_drop]
    congr 1
    omega

theorem readByte_writeBytes_self_at {f g : Frame} {i : Nat} {bs : List Nat}
    (h : writeBytes f i bs = some g) {k : Nat} (hk : k < bs.length) :
    readByte g (i + k) = bs[k]? := by
  have hle := writeBytes_le h
  rw [writeBytes_some hle, Option.some.injEq] at h
  subst h
  have hti : (f.take i).length = i := by simp; omega
  rw [readByte, List.append_assoc, List.getElem?_append, hti, if_neg (by omega),
    List.getElem?_append, if_pos (by omega : i + k - i < bs.length)]
  congr 1
  omega

theorem readBytes_congr {f g : Frame} {n j : Nat}
    (h : ∀ k, k < n → readByte g (j + k) = readByte f (j + k)) :
    readBytes g j n = readBytes f j n := by
  induction n generalizing j with
  | zero => rfl
  | succ n ih =>
    have h0 : readByte g j = readByte f j := by
      have := h 0 (by omega); simpa using this
    have htail : readBytes g (j + 1) n = readBytes f (j + 1) n := by
      apply ih
      intro k hk
      have := h (k + 1) (by omega)
      have harith : j + (k + 1) = j + 1 + k := by omega
      rwa [harith] at this
    rw [readBytes, readBytes, h0, htail]

theorem readBytes_eq_of_pointwise {g : Frame} {l : List Nat} {i : Nat}
    (h : ∀ k, k < l.length → readByte g (i + k) = l[k]?) :
    readBytes g i l.length = some l := by
  induction l generalizing i with
  | nil => rfl
  | cons b t ih =>
    have h0 : readByte g i = some b := by
      have := h 0 (by simp)
      simpa using this
    have htail : readBytes g (i + 1) t.length = some t := by
      apply ih
      intro k hk
      have := h (k + 1) (by simp; omega)
      have harith : i + (k + 1) = i + 1 + k := by omega
      rw [harith] at this
      simpa using this
    rw [List.length_cons, readBytes, h0, Option.some_bind, htail, Option.map_some']

theorem readBytes_writeBytes_self {f g : Frame} {i : Nat} {bs : List Nat}
    (h : writeBytes f i bs = some g) : readBytes g i bs.length = some bs :=
  readBytes_eq_of_pointwise fun _ hk => readByte_writeBytes_self_at h hk

theorem read16_congr {f g : Frame} {j : Nat}
    (h0 : readByte g j = readByte f j) (h1 : readByte g (j + 1) = readByte f (j + 1)) :
    read16 g j = read16 f j := by
  rw [read16, read16, h0, h1]

/-! ## Protocol constants (values from the Windows / ndisapi headers) -/

/-- Ethertype for IPv4 (`ETH_P_IP`, compared against `ntohs(h_proto)`). -/
def ETH_P_IP : Nat := 2048

/-- `IPPROTO_TCP`. -/
def IPPROTO_TCP : Nat := 6

/-- `IPPROTO_UDP`. -/
def IPPROTO_UDP : Nat := 17

/-- `IF_TYPE_PPP`. -/
def IF_TYPE_PPP : Nat := 23

/-- `AF_INET`. -/
def AF_INET : Nat := 2

/-- The IPv4 header length field: low nibble of the byte at offset 14
    (the MSVC bitfield `ip_hl:4` declared first occupies the low bits),
    measured in 32-bit words (`sizeof(DWORD) * ip_hl` bytes). -/
def ip_hl (f : Frame) : Option Nat := (readByte f 14).map fun vhl => vhl % 16

/-! ## Internet checksum

`CNdisApi::RecalculateIPChecksum`, `RecalculateTCPChecksum` and
`RecalculateUDPChecksum` are part of the ndisapi library, outside the
visible source tree. -/

/-- Modelled from the spec: one step of end-around-carry folding, applied
    three times, which fully folds any 16-bit ones-complement sum whose raw
    value is below `2^32` (any frame of realistic size).  A value already
    below `2^16` is a fixed point of the step. -/
def foldCarry (n : Nat) : Nat :=
  let n1 := n % 65536 + n / 65536
  let n2 := n1 % 65536 + n1 / 65536
  n2 % 65536 + n2 / 65536

/-- Modelled from the spec: sum of big-endian 16-bit words of a byte list,
    an odd trailing byte padded with a zero low byte (RFC 1071). -/
def sum16 : List Nat → Nat
  | [] => 0
  | [b] => b * 256
  | b1 :: b2 :: rest => b1 * 256 + b2 + sum16 rest

/-- Modelled from the spec: the standard Internet checksum (ones-complement
    of the folded 16-bit ones-complement sum) of a byte sequence. -/
def checksum16 (bs : List Nat) : Nat := 65535 - foldCarry (sum16 bs)

/-- Modelled from the spec: the IP header checksum computed over the IPv4
    header bytes (offsets `[14, 14 + 4*ip_hl)`) with the checksum field
    (offsets 24,25) read as zero. -/
def computeIPChecksum (f : Frame) : Option Nat :=
  (ip_hl f).bind fun ihl =>
  (readBytes f 14 10).bind fun hdrPre =>
  (readBytes f 26 (4 * ihl - 12)).map fun hdrPost =>
    checksum16 (hdrPre ++ 0 :: 0 :: hdrPost)

/-- Modelled from the spec: the UDP checksum over the pseudo-header
    (source address, destination address, zero byte, protocol, UDP length)
    followed by the UDP header and payload with the checksum field
    (transport offset + 6,7) read as zero; a result of zero is transmitted
    as `0xFFFF` (RFC 768). -/
def computeUDPChecksum (f : Frame) : Option Nat :=
  (ip_hl f).bind fun ihl =>
  (readBytes f 26 8).bind fun addrs =>
  (read16 f (14 + 4 * ihl + 4)).bind fun udpLen =>
  (readBytes f (14 + 4 * ihl) 6).bind fun udpPre =>
  (readBytes f (14 + 4 * ihl + 8) (udpLen - 8)).map fun payload =>
    let c := checksum16 (addrs ++ 0 :: IPPROTO_UDP :: udpLen / 256 :: udpLen % 256 ::
      udpPre ++ 0 :: 0 :: payload)
    if c = 0 then 65535 else c

/-- Modelled from the spec: the TCP checksum over the pseudo-header and the
    TCP segment (length = IPv4 total length minus the IP header length)
    with the checksum field (transport offset + 16,17) read as zero. -/
def computeTCPChecksum (f : Frame) : Option Nat :=
  (ip_hl f).bind fun ihl =>
  (read16 f 16).bind fun totLen =>
  (readBytes f 26 8).bind fun addrs =>
  (readBytes f (14 + 4 * ihl) 16).bind fun tcpPre =>
  (readBytes f (14 + 4 * ihl + 18) (totLen - 4 * ihl - 18)).map fun rest =>
    checksum16 (addrs ++ 0 :: IPPROTO_TCP :: (totLen - 4 * ihl) / 256 ::
      (totLen - 4 * ihl) % 256 :: tcpPre ++ 0 :: 0 :: rest)

/-- Modelled from the spec: `CNdisApi::RecalculateUDPChecksum` — compute the
    UDP checksum of the (already mutated) frame and store it big-endian in
    the UDP checksum field. -/
def recalculateUDPChecksum (f : Frame) : Option Frame :=
  (ip_hl f).bind fun ihl =>
  (computeUDPChecksum f).bind fun c =>
  writeBytes f (14 + 4 * ihl + 6) [c / 256, c % 256]

/-- Modelled from the spec: `CNdisApi::RecalculateTCPChecksum`. -/
def recalculateTCPChecksum (f : Frame) : Option Frame :=
  (ip_hl f).bind fun ihl =>
  (computeTCPChecksum f).bind fun c =>
  writeBytes f (14 + 4 * ihl + 16) [c / 256, c % 256]

/-- Modelled from the spec: `CNdisApi::RecalculateIPChecksum`. -/
def recalculateIPChecksum (f : Frame) : Option Frame :=
  (computeIPChecksum f).bind fun c =>
  writeBytes f 24 [c / 256, c % 256]

/-- The IP header checksum field holds exactly the checksum recomputed
    independently from the frame's current content. -/
def ipChecksumValid (f : Frame) : Prop :=
  ∃ c, computeIPChecksum f = some c ∧ read16 f 24 = some c

/-- The UDP checksum field holds exactly the checksum recomputed
    independently from the frame's current content. -/
def udpChecksumValid (f : Frame) : Prop :=
  ∃ ihl c, ip_hl f = some ihl ∧ computeUDPChecksum f = some c ∧
    read16 f (14 + 4 * ihl + 6) = some c

/-- The TCP checksum field holds exactly the checksum recomputed
    independently from the frame's current content. -/
def tcpChecksumValid (f : Frame) : Prop :=
  ∃ ihl c, ip_hl f = some ihl ∧ computeTCPChecksum f = some c ∧
    read16 f (14 + 4 * ihl + 16) = some c

/-! ## Flow attribution (`iphelper::process_lookup`)

The connection-table collaborator (`process_lookup<net::ip_address_v4>`)
lives outside the visible source; it is modelled as an explicit record of
lookup functions: the pre-refresh snapshot tables and the post-`actualize`
tables.  Every table interaction performed by the engine is recorded in a
trace so that the lookup/refresh policy can be stated. -/

/-- `iphelper::network_process` (only the image name is consulted). -/
structure NetworkProcess where
  name : List Char
deriving DecidableEq

/-- `net::ip_session<ip_address_v4>`: the full TCP 4-tuple key. -/
structure TcpSessionKey where
  ip_src : List Nat
  ip_dst : List Nat
  th_sport : Nat
  th_dport : Nat
deriving DecidableEq

/-- `net::ip_endpoint<ip_address_v4>`: the UDP local-endpoint key. -/
structure UdpEndpointKey where
  ip_src : List Nat
  th_sport : Nat
deriving DecidableEq

/-- One interaction with the external connection table. -/
inductive TableAction where
  | lookupTcp (key : TcpSessionKey) (afterRefresh : Bool)
  | lookupUdp (key : UdpEndpointKey) (afterRefresh : Bool)
  | actualize (tcp : Bool) (udp : Bool)
deriving DecidableEq

/-- The external connection-table collaborator: snapshot lookups and the
    lookups observed after the corresponding `actualize` refresh. -/
structure ProcessLookup where
  lookupTcpSnapshot : TcpSessionKey → Option NetworkProcess
  lookupTcpRefreshed : TcpSessionKey → Option NetworkProcess
  lookupUdpSnapshot : UdpEndpointKey → Option NetworkProcess
  lookupUdpRefreshed : UdpEndpointKey → Option NetworkProcess

/-- `rebind_router::resolve_process_for_tcp`: snapshot lookup by the TCP
    4-tuple; on a miss, `actualize(true, false)` (TCP table only) and one
    retry.  Returns the resolved process (possibly `none`, the empty
    `shared_ptr`) and the trace of table interactions. -/
def resolve_process_for_tcp (env : ProcessLookup) (ip_src ip_dst : List Nat)
    (sport dport : Nat) : Option NetworkProcess × List TableAction :=
  match env.lookupTcpSnapshot ⟨ip_src, ip_dst, sport, dport⟩ with
  | some process => (some process, [TableAction.lookupTcp ⟨ip_src, ip_dst, sport, dport⟩ false])
  | none =>
    (env.lookupTcpRefreshed ⟨ip_src, ip_dst, sport, dport⟩,
     [TableAction.lookupTcp ⟨ip_src, ip_dst, sport, dport⟩ false,
      TableAction.actualize true false,
      TableAction.lookupTcp ⟨ip_src, ip_dst, sport, dport⟩ true])

/-- `rebind_router::resolve_process_for_udp`: snapshot lookup by the UDP
    local endpoint (source address and source port only); on a miss,
    `actualize(false, true)` (UDP table only) and one retry. -/
def resolve_process_for_udp (env : ProcessLookup) (ip_src : List Nat)
    (sport : Nat) : Option NetworkProcess × List TableAction :=
  match env.lookupUdpSnapshot ⟨ip_src, sport⟩ with
  | some process => (some process, [TableAction.lookupUdp ⟨ip_src, sport⟩ false])
  | none =>
    (env.lookupUdpRefreshed ⟨ip_src, sport⟩,
     [TableAction.lookupUdp ⟨ip_src, sport⟩ false,
      TableAction.actualize false true,
      TableAction.lookupUdp ⟨ip_src, sport⟩ true])

/-! ## The classify-and-rewrite entry points -/

/-- Modelled from the spec: the per-frame Verdict
    (`ndisapi::dual_packet_filter::packet_action`):
    Pass = forward unmodified, Route = forward after rewrite,
    Drop = discard. -/
inductive PacketAction where
  | pass
  | drop
  | route
deriving DecidableEq

/-- The std::wstring containment test
    `haystack.find(needle) != std::wstring::npos`: `needle` occurs in
    `haystack` as a contiguous substring (an empty needle is found at
    position 0). -/
def wstr_contains (hay needle : List Char) : Bool := decide (needle <:+: hay)

/-- The configuration state of `rebind_router` consulted by the two
    classify lambdas: application name, addresses of the default and
    rebind adapters, and the rebind gateway MAC.  The length fields record
    the fixed sizes of `net::mac_address` (6) and `net::ip_address_v4` (4). -/
structure RebindConfig where
  app_name_ : List Char
  rebind_src_hw_address_ : List Nat
  default_src_hw_address_ : List Nat
  rebind_gw_hw_address_ : List Nat
  rebind_src_ip_address_ : List Nat
  default_src_ip_address_ : List Nat
  rebind_hw_len : rebind_src_hw_address_.length = 6
  default_hw_len : default_src_hw_address_.length = 6
  gw_hw_len : rebind_gw_hw_address_.length = 6
  rebind_ip_len : rebind_src_ip_address_.length = 4
  default_ip_len : default_src_ip_address_.length = 4

/-- The egress lambda (frames captured on the default adapter).
    Field offsets: Ethernet `h_dest` 0..5, `h_source` 6..11, `h_proto`
    12..13; IPv4 header at 14 (`ip_p` at 23, checksum at 24..25, `ip_src`
    at 26..29, `ip_dst` at 30..33); transport header at `14 + 4*ip_hl`.
    The pcap log write (`file_stream_ << buffer`) does not affect the
    verdict or the frame and is not modelled. -/
def classify_egress (cfg : RebindConfig) (env : ProcessLookup) (f : Frame) :
    Option (PacketAction × Frame × List TableAction) :=
  (read16 f 12).bind fun h_proto =>
  if h_proto = ETH_P_IP then
    (readBytes f 26 4).bind fun ip_src =>
    if ip_src ≠ cfg.default_src_ip_address_ then
      some (PacketAction.pass, f, [])
    else
      (readByte f 23).bind fun ip_p =>
      if ip_p = IPPROTO_UDP then
        (ip_hl f).bind fun ihl =>
        (read16 f (14 + 4 * ihl)).bind fun th_sport =>
        let res := resolve_process_for_udp env ip_src th_sport
        res.1.bind fun process =>
        if wstr_contains process.name cfg.app_name_ then
          (writeBytes f 26 cfg.rebind_src_ip_address_).bind fun f1 =>
          (writeBytes f1 6 cfg.rebind_src_hw_address_).bind fun f2 =>
          (writeBytes f2 0 cfg.rebind_gw_hw_address_).bind fun f3 =>
          (recalculateUDPChecksum f3).bind fun f4 =>
          (recalculateIPChecksum f4).map fun f5 =>
          (PacketAction.route, f5, res.2)
        else some (PacketAction.pass, f, res.2)
      else if ip_p = IPPROTO_TCP then
        (ip_hl f).bind fun ihl =>
        (read16 f (14 + 4 * ihl)).bind fun th_sport =>
        (read16 f (14 + 4 * ihl + 2)).bind fun th_dport =>
        (readBytes f 30 4).bind fun ip_dst =>
        let res := resolve_process_for_tcp env ip_src ip_dst th_sport th_dport
        res.1.bind fun process =>
        if wstr_contains process.name cfg.app_name_ then
          (writeBytes f 26 cfg.rebind_src_ip_address_).bind fun f1 =>
          (writeBytes f1 6 cfg.rebind_src_hw_address_).bind fun f2 =>
          (writeBytes f2 0 cfg.rebind_gw_hw_address_).bind fun f3 =>
          (recalculateTCPChecksum f3).bind fun f4 =>
          (recalculateIPChecksum f4).map fun f5 =>
          (PacketAction.route, f5, res.2)
        else some (PacketAction.pass, f, res.2)
      else some (PacketAction.pass, f, [])
  else some (PacketAction.pass, f, [])

/-- The ingress lambda (frames captured on the rebind adapter): no process
    attribution; rewrite the destination address and destination MAC when
    the frame is IPv4 TCP/UDP addressed to the rebind address. -/
def classify_ingress (cfg : RebindConfig) (f : Frame) :
    Option (PacketAction × Frame) :=
  (read16 f 12).bind fun h_proto =>
  if h_proto = ETH_P_IP then
    (readBytes f 30 4).bind fun ip_dst =>
    if ip_dst ≠ cfg.rebind_src_ip_address_ then
      some (PacketAction.pass, f)
    else
      (readByte f 23).bind fun ip_p =>
      if ip_p = IPPROTO_UDP ∨ ip_p = IPPROTO_TCP then
        (writeBytes f 30 cfg.default_src_ip_address_).bind fun f1 =>
        (writeBytes f1 0 cfg.default_src_hw_address_).bind fun f2 =>
        (if ip_p = IPPROTO_UDP then recalculateUDPChecksum f2
         else recalculateTCPChecksum f2).bind fun f3 =>
        (recalculateIPChecksum f3).map fun f4 =>
        (PacketAction.route, f4)
      else some (PacketAction.pass, f)
  else some (PacketAction.pass, f)

/-! ## Session configuration (`set_ndis_interfaces_by_adapter_info`)

The adapter-enumeration collaborators (`iphelper::network_adapter_info`,
the NDIS interface list of `dual_packet_filter`) are outside the visible
source; their record types below are modelled from the spec's external
interface description (adapter name, link type, unicast and gateway
address lists with gateway hardware addresses, WAN link type).  The
configure operation itself is transcribed from the source. -/

/-- Modelled from the spec: one RAS link of an NDISWAN adapter. -/
structure RasLink where
  ip_address : List Nat
deriving DecidableEq

/-- Modelled from the spec: one NDIS-level adapter as exposed by
    `filter_->get_interface_list()`. -/
structure NdisAdapter where
  internal_name : List Char
  wan_type : Nat
  adapter_handle : Nat
  hw_address : List Nat
  ras_links : Option (List RasLink)
deriving DecidableEq

/-- `ndisapi::ndis_wan_type::ndis_wan_none`. -/
def ndis_wan_none : Nat := 0

/-- Modelled from the spec: a socket address entry of an adapter-info
    address list (family tag, address bytes and, for gateway entries, the
    resolved gateway hardware address). -/
structure SockAddrInfo where
  ss_family : Nat
  addr_bytes : List Nat
  hardware_address : List Nat
deriving DecidableEq

/-- Modelled from the spec: `iphelper::network_adapter_info`. -/
structure NetworkAdapterInfo where
  adapter_name : List Char
  if_type : Nat
  unicast_address_list : List SockAddrInfo
  gateway_address_list : List SockAddrInfo
deriving DecidableEq

/-- Modelled from the spec: `network_adapter_info::has_address` — the
    adapter owns the given unicast address. -/
def NetworkAdapterInfo.has_address (info : NetworkAdapterInfo) (a : List Nat) : Bool :=
  info.unicast_address_list.any fun s => s.addr_bytes == a

/-- Placeholder adapter for (never-taken) out-of-range list indexing. -/
def dfltNdisAdapter : NdisAdapter := ⟨[], 0, 0, [], none⟩

/-- `list[i]` on the NDIS interface list (the index is always in range
    where this is used; out of range yields the placeholder). -/
def ndisAt (l : List NdisAdapter) (i : Nat) : NdisAdapter := l.getD i dfltNdisAdapter

/-- `rebind_router::get_ndis_interface_by_adapter_info`: index of the first
    NDIS adapter whose internal name contains the adapter name (non-PPP),
    or whose RAS links include one of the adapter's addresses (PPP). -/
def get_ndis_interface_by_adapter_info (ndis_adapters : List NdisAdapter)
    (info : NetworkAdapterInfo) : Option Nat :=
  if info.if_type ≠ IF_TYPE_PPP then
    ndis_adapters.findIdx? fun a => wstr_contains a.internal_name info.adapter_name
  else
    ndis_adapters.findIdx? fun a =>
      match a.ras_links with
      | some links => links.any fun l => info.has_address l.ip_address
      | none => false

/-- The mutable members of `rebind_router` assigned by
    `set_ndis_interfaces_by_adapter_info`. -/
structure RouterState where
  default_adapter_handle_ : Nat
  rebind_adapter_handle_ : Nat
  rebind_src_hw_address_ : List Nat
  default_src_hw_address_ : List Nat
  rebind_gw_hw_address_ : List Nat
  rebind_src_ip_address_ : List Nat
  default_src_ip_address_ : List Nat
deriving DecidableEq

/-- `rebind_router::set_ndis_interfaces_by_adapter_info`, as a state
    transformer on the router members: resolve both NDIS indices, reject
    when either is missing or the rebind adapter is an NDISWAN link, then
    assign handles, hardware addresses, the (last AF_INET) gateway MAC of
    the rebind adapter and the (last AF_INET) unicast addresses. -/
def set_ndis_interfaces_by_adapter_info (ndis_adapters : List NdisAdapter)
    (st : RouterState) (default_adapter rebind_adapter : NetworkAdapterInfo) :
    Bool × RouterState :=
  match get_ndis_interface_by_adapter_info ndis_adapters default_adapter with
  | none => (false, st)
  | some ndis_default =>
    match get_ndis_interface_by_adapter_info ndis_adapters rebind_adapter with
    | none => (false, st)
    | some ndis_rebind =>
      if (ndisAt ndis_adapters ndis_rebind).wan_type ≠ ndis_wan_none then
        (false, st)
      else
        let st1 := { st with
          default_adapter_handle_ :=
            (ndisAt ndis_adapters ndis_default).adapter_handle
          rebind_adapter_handle_ :=
            (ndisAt ndis_adapters ndis_rebind).adapter_handle
          default_src_hw_address_ :=
            (ndisAt ndis_adapters ndis_default).hw_address
          rebind_src_hw_address_ :=
            (ndisAt ndis_adapters ndis_rebind).hw_address }
        let st2 := rebind_adapter.gateway_address_list.foldl
          (fun s gw =>
            if gw.ss_family = AF_INET then
              { s with rebind_gw_hw_address_ := gw.hardware_address }
            else s) st1
        let st3 := rebind_adapter.unicast_address_list.foldl
          (fun s ip =>
            if ip.ss_family = AF_INET then
              { s with rebind_src_ip_address_ := ip.addr_bytes }
            else s) st2
        let st4 := default_adapter.unicast_address_list.foldl
          (fun s ip =>
            if ip.ss_family = AF_INET then
              { s with default_src_ip_address_ := ip.addr_bytes }
            else s) st3
        (true, st4)

/-! ## Reusable facts about the checksum recomputation pipeline -/

theorem ip_hl_congr {f g : Frame} (h : readByte g 14 = readByte f 14) :
    ip_hl g = ip_hl f := by
  rw [ip_hl, ip_hl, h]

theorem computeIPChecksum_congr {f g : Frame} {ihl : Nat}
    (hg : ip_hl g = some ihl) (hf : ip_hl f = some ihl)
    (hpt : ∀ j, (14 ≤ j ∧ j < 24) ∨ 26 ≤ j → readByte g j = readByte f j) :
    computeIPChecksum g = computeIPChecksum f := by
  have e1 : readBytes g 14 10 = readBytes f 14 10 :=
    readBytes_congr fun k hk => hpt (14 + k) (by omega)
  have e2 : readBytes g 26 (4 * ihl - 12) = readBytes f 26 (4 * ihl - 12) :=
    readBytes_congr fun k hk => hpt (26 + k) (by omega)
  simp only [computeIPChecksum, hg, hf, Option.some_bind, e1, e2]

theorem computeUDPChecksum_congr {f g : Frame} {ihl : Nat}
    (hg : ip_hl g = some ihl) (hf : ip_hl f = some ihl)
    (hpt : ∀ j, (26 ≤ j ∧ j < 34) ∨ (14 + 4 * ihl ≤ j ∧ j < 14 + 4 * ihl + 6) ∨
      14 + 4 * ihl + 8 ≤ j → readByte g j = readByte f j) :
    computeUDPChecksum g = computeUDPChecksum f := by
  have e1 : readBytes g 26 8 = readBytes f 26 8 :=
    readBytes_congr fun k hk => hpt (26 + k) (by omega)
  have e2 : read16 g (14 + 4 * ihl + 4) = read16 f (14 + 4 * ihl + 4) :=
    read16_congr (hpt _ (by omega)) (hpt _ (by omega))
  have e3 : readBytes g (14 + 4 * ihl) 6 = readBytes f (14 + 4 * ihl) 6 :=
    readBytes_congr fun k hk => hpt (14 + 4 * ihl + k) (by omega)
  have e4 : ∀ n, readBytes g (14 + 4 * ihl + 8) n = readBytes f (14 + 4 * ihl + 8) n :=
    fun n => readBytes_congr fun k hk => hpt (14 + 4 * ihl + 8 + k) (by omega)
  simp only [computeUDPChecksum, hg, hf, Option.some_bind, e1, e2, e3, e4]

theorem computeTCPChecksum_congr {f g : Frame} {ihl : Nat}
    (hg : ip_hl g = some ihl) (hf : ip_hl f = some ihl)
    (hpt : ∀ j, (16 ≤ j ∧ j < 18) ∨ (26 ≤ j ∧ j < 34) ∨
      (14 + 4 * ihl ≤ j ∧ j < 14 + 4 * ihl + 16) ∨ 14 + 4 * ihl + 18 ≤ j →
      readByte g j = readByte f j) :
    computeTCPChecksum g = computeTCPChecksum f := by
  have e0 : read16 g 16 = read16 f 16 :=
    read16_congr (hpt _ (by omega)) (hpt _ (by omega))
  have e1 : readBytes g 26 8 = readBytes f 26 8 :=
    readBytes_congr fun k hk => hpt (26 + k) (by omega)
  have e2 : readBytes g (14 + 4 * ihl) 16 = readBytes f (14 + 4 * ihl) 16 :=
    readBytes_congr fun k hk => hpt (14 + 4 * ihl + k) (by omega)
  have e3 : ∀ n, readBytes g (14 + 4 * ihl + 18) n = readBytes f (14 + 4 * ihl + 18) n :=
    fun n => readBytes_congr fun k hk => hpt (14 + 4 * ihl + 18 + k) (by omega)
  simp only [computeTCPChecksum, hg, hf, Option.some_bind, e0, e1, e2, e3]

/-- Recomputing the IP header checksum on a frame with a well-formed header
    length succeeds, establishes IP-checksum validity, and touches only the
    checksum field bytes 24 and 25. -/
theorem recalcIP_chain {m1 : Frame} {ihl : Nat} (ehl : ip_hl m1 = some ihl)
    (h5 : 5 ≤ ihl) (hfit : 14 + 4 * ihl ≤ m1.length) :
    ∃ g, recalculateIPChecksum m1 = some g ∧ ipChecksumValid g ∧
      ip_hl g = some ihl ∧ g.length = m1.length ∧
      ∀ j, j ≠ 24 → j ≠ 25 → readByte g j = readByte m1 j := by
  have h1 := readBytes_eq_drop_take (f := m1) (show 14 + 10 ≤ m1.length by omega)
  have h2 := readBytes_eq_drop_take (f := m1)
    (show 26 + (4 * ihl - 12) ≤ m1.length by omega)
  have hsome : (computeIPChecksum m1).isSome = true := by
    simp only [computeIPChecksum, ehl, h1, h2, Option.some_bind, Option.map_some',
      Option.isSome_some]
  obtain ⟨ci, hci⟩ := Option.isSome_iff_exists.mp hsome
  obtain ⟨g, hw⟩ : ∃ z, writeBytes m1 24 [ci / 256, ci % 256] = some z :=
    ⟨_, writeBytes_some (by simp; omega)⟩
  have hout : ∀ j, j ≠ 24 → j ≠ 25 → readByte g j = readByte m1 j :=
    fun j hj1 hj2 => readByte_writeBytes_out hw (by simp; omega)
  have ehlg : ip_hl g = some ihl := (ip_hl_congr (hout 14 (by omega) (by omega))).trans ehl
  have hcig : computeIPChecksum g = some ci := by
    rw [computeIPChecksum_congr ehlg ehl (fun j hj => hout j (by omega) (by omega))]
    exact hci
  have hf0 : readByte g 24 = some (ci / 256) := by
    have := readByte_writeBytes_self_at hw (k := 0) (by simp)
    simpa using this
  have hf1 : readByte g (24 + 1) = some (ci % 256) := by
    have := readByte_writeBytes_self_at hw (k := 1) (by simp)
    simpa using this
  have hfield : read16 g 24 = some ci := by
    rw [read16, hf0, hf1]
    simp only [Option.some_bind, Option.map_some', Option.some.injEq]
    omega
  refine ⟨g, ?_, ⟨ci, hcig, hfield⟩, ehlg, writeBytes_length hw, hout⟩
  simp only [recalculateIPChecksum, hci, Option.some_bind]
  exact hw

/-- The egress/ingress UDP rewrite tail: recompute the UDP checksum, then
    the IP checksum.  Both succeed on a well-formed frame, both checksum
    fields validate against the final content, and no byte outside the two
    checksum fields changes. -/
theorem udp_ip_recalc_chain {m : Frame} {ihl udpLen : Nat}
    (hihl : ip_hl m = some ihl) (h5 : 5 ≤ ihl)
    (hlen : read16 m (14 + 4 * ihl + 4) = some udpLen) (h8 : 8 ≤ udpLen)
    (hfit : 14 + 4 * ihl + udpLen ≤ m.length) :
    ∃ m1 g, recalculateUDPChecksum m = some m1 ∧ recalculateIPChecksum m1 = some g ∧
      udpChecksumValid g ∧ ipChecksumValid g ∧ g.length = m.length ∧
      ∀ j, j ≠ 24 → j ≠ 25 → (j < 14 + 4 * ihl + 6 ∨ 14 + 4 * ihl + 8 ≤ j) →
        readByte g j = readByte m j := by
  have h1 := readBytes_eq_drop_take (f := m) (show 26 + 8 ≤ m.length by omega)
  have h2 := readBytes_eq_drop_take (f := m) (show 14 + 4 * ihl + 6 ≤ m.length by omega)
  have h3 := readBytes_eq_drop_take (f := m)
    (show 14 + 4 * ihl + 8 + (udpLen - 8) ≤ m.length by omega)
  have hsome : (computeUDPChecksum m).isSome = true := by
    simp only [computeUDPChecksum, hihl, h1, hlen, h2, h3, Option.some_bind,
      Option.map_some', Option.isSome_some]
  obtain ⟨c, hc⟩ := Option.isSome_iff_exists.mp hsome
  obtain ⟨m1, hw1⟩ : ∃ z, writeBytes m (14 + 4 * ihl + 6) [c / 256, c % 256] = some z :=
    ⟨_, writeBytes_some (by simp; omega)⟩
  have hrecalc1 : recalculateUDPChecksum m = some m1 := by
    simp only [recalculateUDPChecksum, hihl, hc, Option.some_bind]
    exact hw1
  have hout1 : ∀ j, j < 14 + 4 * ihl + 6 ∨ 14 + 4 * ihl + 8 ≤ j →
      readByte m1 j = readByte m j :=
    fun j hj => readByte_writeBytes_out hw1 (by simp; omega)
  have hlen1 : m1.length = m.length := writeBytes_length hw1
  have ehl1 : ip_hl m1 = some ihl := (ip_hl_congr (hout1 14 (by omega))).trans hihl
  have hc1 : computeUDPChecksum m1 = some c := by
    rw [computeUDPChecksum_congr ehl1 hihl (fun j hj => hout1 j (by omega))]
    exact hc
  have hfld0 : readByte m1 (14 + 4 * ihl + 6) = some (c / 256) := by
    have := readByte_writeBytes_self_at hw1 (k := 0) (by simp)
    simpa using this
  have hfld1 : readByte m1 (14 + 4 * ihl + 6 + 1) = some (c % 256) := by
    have := readByte_writeBytes_self_at hw1 (k := 1) (by simp)
    simpa using this
  have hfield1 : read16 m1 (14 + 4 * ihl + 6) = some c := by
    rw [read16, hfld0, hfld1]
    simp only [Option.some_bind, Option.map_some', Option.some.injEq]
    omega
  obtain ⟨g, hrecalc2, hipv, ehlg, hleng, houtg⟩ := recalcIP_chain ehl1 h5 (by omega)
  have hcg : computeUDPChecksum g = some c := by
    rw [computeUDPChecksum_congr ehlg ehl1 (fun j hj => houtg j (by omega) (by omega))]
    exact hc1
  have hfieldg : read16 g (14 + 4 * ihl + 6) = some c := by
    rw [read16_congr (houtg _ (by omega) (by omega)) (houtg _ (by omega) (by omega))]
    exact hfield1
  refine ⟨m1, g, hrecalc1, hrecalc2, ⟨ihl, c, ehlg, hcg, hfieldg⟩, hipv, by omega, ?_⟩
  intro j hj1 hj2 hj3
  rw [houtg j hj1 hj2]
  exact hout1 j hj3

/-- The egress/ingress TCP rewrite tail, analogous to `udp_ip_recalc_chain`. -/
theorem tcp_ip_recalc_chain {m : Frame} {ihl totLen : Nat}
    (hihl : ip_hl m = some ihl) (h5 : 5 ≤ ihl)
    (htot : read16 m 16 = some totLen) (h18 : 4 * ihl + 18 ≤ totLen)
    (hfit : 14 + totLen ≤ m.length) :
    ∃ m1 g, recalculateTCPChecksum m = some m1 ∧ recalculateIPChecksum m1 = some g ∧
      tcpChecksumValid g ∧ ipChecksumValid g ∧ g.length = m.length ∧
      ∀ j, j ≠ 24 → j ≠ 25 → (j < 14 + 4 * ihl + 16 ∨ 14 + 4 * ihl + 18 ≤ j) →
        readByte g j = readByte m j := by
  have h1 := readBytes_eq_drop_take (f := m) (show 26 + 8 ≤ m.length by omega)
  have h2 := readBytes_eq_drop_take (f := m)
    (show 14 + 4 * ihl + 16 ≤ m.length by omega)
  have h3 := readBytes_eq_drop_take (f := m)
    (show 14 + 4 * ihl + 18 + (totLen - 4 * ihl - 18) ≤ m.length by omega)
  have hsome : (computeTCPChecksum m).isSome = true := by
    simp only [computeTCPChecksum, hihl, htot, h1, h2, h3, Option.some_bind,
      Option.map_some', Option.isSome_some]
  obtain ⟨c, hc⟩ := Option.isSome_iff_exists.mp hsome
  obtain ⟨m1, hw1⟩ : ∃ z, writeBytes m (14 + 4 * ihl + 16) [c / 256, c % 256] = some z :=
    ⟨_, writeBytes_some (by simp; omega)⟩
  have hrecalc1 : recalculateTCPChecksum m = some m1 := by
    simp only [recalculateTCPChecksum, hihl, hc, Option.some_bind]
    exact hw1
  have hout1 : ∀ j, j < 14 + 4 * ihl + 16 ∨ 14 + 4 * ihl + 18 ≤ j →
      readByte m1 j = readByte m j :=
    fun j hj => readByte_writeBytes_out hw1 (by simp; omega)
  have hlen1 : m1.length = m.length := writeBytes_length hw1
  have ehl1 : ip_hl m1 = some ihl := (ip_hl_congr (hout1 14 (by omega))).trans hihl
  have hc1 : computeTCPChecksum m1 = some c := by
    rw [computeTCPChecksum_congr ehl1 hihl (fun j hj => hout1 j (by omega))]
    exact hc
  have hfld0 : readByte m1 (14 + 4 * ihl + 16) = some (c / 256) := by
    have := readByte_writeBytes_self_at hw1 (k := 0) (by simp)
    simpa using this
  have hfld1 : readByte m1 (14 + 4 * ihl + 16 + 1) = some (c % 256) := by
    have := readByte_writeBytes_self_at hw1 (k := 1) (by simp)
    simpa using this
  have hfield1 : read16 m1 (14 + 4 * ihl + 16) = some c := by
    rw [read16, hfld0, hfld1]
    simp only [Option.some_bind, Option.map_some', Option.some.injEq]
    omega
  obtain ⟨g, hrecalc2, hipv, ehlg, hleng, houtg⟩ := recalcIP_chain ehl1 h5 (by omega)
  have hcg : computeTCPChecksum g = some c := by
    rw [computeTCPChecksum_congr ehlg ehl1 (fun j hj => houtg j (by omega) (by omega))]
    exact hc1
  have hfieldg : read16 g (14 + 4 * ihl + 16) = some c := by
    rw [read16_congr (houtg _ (by omega) (by omega)) (houtg _ (by omega) (by omega))]
    exact hfield1
  refine ⟨m1, g, hrecalc1, hrecalc2, ⟨ihl, c, ehlg, hcg, hfieldg⟩, hipv, by omega, ?_⟩
  intro j hj1 hj2 hj3
  rw [houtg j hj1 hj2]
  exact hout1 j hj3

/-! ## Forward evaluation lemmas for the egress classifier -/

theorem classify_egress_pass_nonip {cfg : RebindConfig} {env : ProcessLookup}
    {f : Frame} {hp : Nat} (h12 : read16 f 12 = some hp) (hne : hp ≠ ETH_P_IP) :
    classify_egress cfg env f = some (PacketAction.pass, f, []) := by
  simp [classify_egress, h12, hne]

theorem classify_egress_pass_src {cfg : RebindConfig} {env : ProcessLookup}
    {f : Frame} {s : List Nat} (h12 : read16 f 12 = some ETH_P_IP)
    (h26 : readBytes f 26 4 = some s) (hs : s ≠ cfg.default_src_ip_address_) :
    classify_egress cfg env f = some (PacketAction.pass, f, []) := by
  simp [classify_egress, h12, h26, hs]

theorem classify_egress_pass_proto {cfg : RebindConfig} {env : ProcessLookup}
    {f : Frame} {pr : Nat} (h12 : read16 f 12 = some ETH_P_IP)
    (h26 : readBytes f 26 4 = some cfg.default_src_ip_address_)
    (h23 : readByte f 23 = some pr)
    (hu : pr ≠ IPPROTO_UDP) (ht : pr ≠ IPPROTO_TCP) :
    classify_egress cfg env f = some (PacketAction.pass, f, []) := by
  simp [classify_egress, h12, h26, h23, hu, ht]

theorem classify_egress_pass_nomatch_udp {cfg : RebindConfig} {env : ProcessLookup}
    {f : Frame} {ihl sport : Nat} {p : NetworkProcess} {tr : List TableAction}
    (h12 : read16 f 12 = some ETH_P_IP)
    (h26 : readBytes f 26 4 = some cfg.default_src_ip_address_)
    (h23 : readByte f 23 = some IPPROTO_UDP)
    (hihl : ip_hl f = some ihl)
    (hsport : read16 f (14 + 4 * ihl) = some sport)
    (hres : resolve_process_for_udp env cfg.default_src_ip_address_ sport = (some p, tr))
    (hmatch : wstr_contains p.name cfg.app_name_ = false) :
    classify_egress cfg env f = some (PacketAction.pass, f, tr) := by
  simp [classify_egress, h12, h26, h23, hihl, hsport, hres, hmatch]

theorem classify_egress_pass_nomatch_tcp {cfg : RebindConfig} {env : ProcessLookup}
    {f : Frame} {ihl sport dport : Nat} {d : List Nat} {p : NetworkProcess}
    {tr : List TableAction}
    (h12 : read16 f 12 = some ETH_P_IP)
    (h26 : readBytes f 26 4 = some cfg.default_src_ip_address_)
    (h23 : readByte f 23 = some IPPROTO_TCP)
    (hihl : ip_hl f = some ihl)
    (hsport : read16 f (14 + 4 * ihl) = some sport)
    (hdport : read16 f (14 + 4 * ihl + 2) = some dport)
    (h30 : readBytes f 30 4 = some d)
    (hres : resolve_process_for_tcp env cfg.default_src_ip_address_ d sport dport =
      (some p, tr))
    (hmatch : wstr_contains p.name cfg.app_name_ = false) :
    classify_egress cfg env f = some (PacketAction.pass, f, tr) := by
  simp [classify_egress, h12, h26, h23, hihl, hsport, hdport, h30, hres, hmatch,
    IPPROTO_TCP, IPPROTO_UDP]

/-- The egress UDP rebind path: a frame from the default address whose
    resolved owner matches the application name is Routed; afterwards the
    IP source is the rebind address, the Ethernet source MAC the rebind
    MAC, the Ethernet destination MAC the gateway MAC, and both the UDP
    and the IP checksums validate against the rewritten content. -/
theorem classify_egress_udp_route {cfg : RebindConfig} {env : ProcessLookup}
    {f : Frame} {ihl sport udpLen : Nat} {p : NetworkProcess} {tr : List TableAction}
    (h12 : read16 f 12 = some ETH_P_IP)
    (h26 : readBytes f 26 4 = some cfg.default_src_ip_address_)
    (h23 : readByte f 23 = some IPPROTO_UDP)
    (hihl : ip_hl f = some ihl) (h5 : 5 ≤ ihl)
    (hsport : read16 f (14 + 4 * ihl) = some sport)
    (hres : resolve_process_for_udp env cfg.default_src_ip_address_ sport = (some p, tr))
    (hmatch : wstr_contains p.name cfg.app_name_ = true)
    (hulen : read16 f (14 + 4 * ihl + 4) = some udpLen) (h8 : 8 ≤ udpLen)
    (hfit : 14 + 4 * ihl + udpLen ≤ f.length) :
    ∃ f', classify_egress cfg env f = some (PacketAction.route, f', tr) ∧
      readBytes f' 26 4 = some cfg.rebind_src_ip_address_ ∧
      readBytes f' 6 6 = some cfg.rebind_src_hw_address_ ∧
      readBytes f' 0 6 = some cfg.rebind_gw_hw_address_ ∧
      udpChecksumValid f' ∧ ipChecksumValid f' ∧ f'.length = f.length := by
  obtain ⟨f1, hw1⟩ : ∃ z, writeBytes f 26 cfg.rebind_src_ip_address_ = some z :=
    ⟨_, writeBytes_some (by have := cfg.rebind_ip_len; omega)⟩
  have hl1 : f1.length = f.length := writeBytes_length hw1
  obtain ⟨f2, hw2⟩ : ∃ z, writeBytes f1 6 cfg.rebind_src_hw_address_ = some z :=
    ⟨_, writeBytes_some (by have := cfg.rebind_hw_len; omega)⟩
  have hl2 : f2.length = f1.length := writeBytes_length hw2
  obtain ⟨f3, hw3⟩ : ∃ z, writeBytes f2 0 cfg.rebind_gw_hw_address_ = some z :=
    ⟨_, writeBytes_some (by have := cfg.gw_hw_len; omega)⟩
  have hl3 : f3.length = f2.length := writeBytes_length hw3
  have hout3 : ∀ j, (12 ≤ j ∧ j < 26) ∨ 30 ≤ j → readByte f3 j = readByte f j := by
    intro j hj
    rw [readByte_writeBytes_out hw3 (by have := cfg.gw_hw_len; omega),
      readByte_writeBytes_out hw2 (by have := cfg.rebind_hw_len; omega),
      readByte_writeBytes_out hw1 (by have := cfg.rebind_ip_len; omega)]
  have ehl3 : ip_hl f3 = some ihl := (ip_hl_congr (hout3 14 (by omega))).trans hihl
  have hulen3 : read16 f3 (14 + 4 * ihl + 4) = some udpLen := by
    rw [read16_congr (hout3 _ (by omega)) (hout3 _ (by omega))]
    exact hulen
  obtain ⟨f4, g, hr1, hr2, hudpv, hipv, hgl, hgout⟩ :=
    udp_ip_recalc_chain ehl3 h5 hulen3 h8 (by omega)
  have hclassify : classify_egress cfg env f = some (PacketAction.route, g, tr) := by
    simp [classify_egress, h12, h26, h23, hihl, hsport, hres, hmatch, hw1, hw2, hw3,
      hr1, hr2]
  have hip1 : readBytes f1 26 4 = some cfg.rebind_src_ip_address_ := by
    have := readBytes_writeBytes_self hw1
    rwa [cfg.rebind_ip_len] at this
  have hip3 : readBytes f3 26 4 = some cfg.rebind_src_ip_address_ := by
    rw [readBytes_congr (fun k hk =>
        readByte_writeBytes_out hw3 (by have := cfg.gw_hw_len; omega)),
      readBytes_congr (fun k hk =>
        readByte_writeBytes_out hw2 (by have := cfg.rebind_hw_len; omega))]
    exact hip1
  have hipg : readBytes g 26 4 = some cfg.rebind_src_ip_address_ := by
    rw [readBytes_congr (fun k hk => hgout (26 + k) (by omega) (by omega) (by omega))]
    exact hip3
  have hhw2 : readBytes f2 6 6 = some cfg.rebind_src_hw_address_ := by
    have := readBytes_writeBytes_self hw2
    rwa [cfg.rebind_hw_len] at this
  have hhw3 : readBytes f3 6 6 = some cfg.rebind_src_hw_address_ := by
    rw [readBytes_congr (fun k hk =>
      readByte_writeBytes_out hw3 (by have := cfg.gw_hw_len; omega))]
    exact hhw2
  have hhwg : readBytes g 6 6 = some cfg.rebind_src_hw_address_ := by
    rw [readBytes_congr (fun k hk => hgout (6 + k) (by omega) (by omega) (by omega))]
    exact hhw3
  have hgw3 : readBytes f3 0 6 = some cfg.rebind_gw_hw_address_ := by
    have := readBytes_writeBytes_self hw3
    rw [cfg.gw_hw_len] at this
    simpa using this
  have hgwg : readBytes g 0 6 = some cfg.rebind_gw_hw_address_ := by
    rw [readBytes_congr (fun k hk => hgout (0 + k) (by omega) (by omega) (by omega))]
    exact hgw3
  exact ⟨g, hclassify, hipg, hhwg, hgwg, hudpv, hipv, by omega⟩

/-- The egress TCP rebind path, analogous to `classify_egress_udp_route`. -/
theorem classify_egress_tcp_route {cfg : RebindConfig} {env : ProcessLookup}
    {f : Frame} {ihl sport dport totLen : Nat} {d : List Nat} {p : NetworkProcess}
    {tr : List TableAction}
    (h12 : read16 f 12 = some ETH_P_IP)
    (h26 : readBytes f 26 4 = some cfg.default_src_ip_address_)
    (h23 : readByte f 23 = some IPPROTO_TCP)
    (hihl : ip_hl f = some ihl) (h5 : 5 ≤ ihl)
    (hsport : read16 f (14 + 4 * ihl) = some sport)
    (hdport : read16 f (14 + 4 * ihl + 2) = some dport)
    (h30 : readBytes f 30 4 = some d)
    (hres : resolve_process_for_tcp env cfg.default_src_ip_address_ d sport dport =
      (some p, tr))
    (hmatch : wstr_contains p.name cfg.app_name_ = true)
    (htot : read16 f 16 = some totLen) (h18 : 4 * ihl + 18 ≤ totLen)
    (hfit : 14 + totLen ≤ f.length) :
    ∃ f', classify_egress cfg env f = some (PacketAction.route, f', tr) ∧
      readBytes f' 26 4 = some cfg.rebind_src_ip_address_ ∧
      readBytes f' 6 6 = some cfg.rebind_src_hw_address_ ∧
      readBytes f' 0 6 = some cfg.rebind_gw_hw_address_ ∧
      tcpChecksumValid f' ∧ ipChecksumValid f' ∧ f'.length = f.length := by
  obtain ⟨f1, hw1⟩ : ∃ z, writeBytes f 26 cfg.rebind_src_ip_address_ = some z :=
    ⟨_, writeBytes_some (by have := cfg.rebind_ip_len; omega)⟩
  have hl1 : f1.length = f.length := writeBytes_length hw1
  obtain ⟨f2, hw2⟩ : ∃ z, writeBytes f1 6 cfg.rebind_src_hw_address_ = some z :=
    ⟨_, writeBytes_some (by have := cfg.rebind_hw_len; omega)⟩
  have hl2 : f2.length = f1.length := writeBytes_length hw2
  obtain ⟨f3, hw3⟩ : ∃ z, writeBytes f2 0 cfg.rebind_gw_hw_address_ = some z :=
    ⟨_, writeBytes_some (by have := cfg.gw_hw_len; omega)⟩
  have hl3 : f3.length = f2.length := writeBytes_length hw3
  have hout3 : ∀ j, (12 ≤ j ∧ j < 26) ∨ 30 ≤ j → readByte f3 j = readByte f j := by
    intro j hj
    rw [readByte_writeBytes_out hw3 (by have := cfg.gw_hw_len; omega),
      readByte_writeBytes_out hw2 (by have := cfg.rebind_hw_len; omega),
      readByte_writeBytes_out hw1 (by have := cfg.rebind_ip_len; omega)]
  have ehl3 : ip_hl f3 = some ihl := (ip_hl_congr (hout3 14 (by omega))).trans hihl
  have htot3 : read16 f3 16 = some totLen := by
    rw [read16_congr (hout3 _ (by omega)) (hout3 _ (by omega))]
    exact htot
  obtain ⟨f4, g, hr1, hr2, htcpv, hipv, hgl, hgout⟩ :=
    tcp_ip_recalc_chain ehl3 h5 htot3 h18 (by omega)
  have hclassify : classify_egress cfg env f = some (PacketAction.route, g, tr) := by
    simp [classify_egress, h12, h26, h23, hihl, hsport, hdport, h30, hres, hmatch,
      hw1, hw2, hw3, hr1, hr2, IPPROTO_TCP, IPPROTO_UDP]
  have hip1 : readBytes f1 26 4 = some cfg.rebind_src_ip_address_ := by
    have := readBytes_writeBytes_self hw1
    rwa [cfg.rebind_ip_len] at this
  have hip3 : readBytes f3 26 4 = some cfg.rebind_src_ip_address_ := by
    rw [readBytes_congr (fun k hk =>
        readByte_writeBytes_out hw3 (by have := cfg.gw_hw_len; omega)),
      readBytes_congr (fun k hk =>
        readByte_writeBytes_out hw2 (by have := cfg.rebind_hw_len; omega))]
    exact hip1
  have hipg : readBytes g 26 4 = some cfg.rebind_src_ip_address_ := by
    rw [readBytes_congr (fun k hk => hgout (26 + k) (by omega) (by omega) (by omega))]
    exact hip3
  have hhw2 : readBytes f2 6 6 = some cfg.rebind_src_hw_address_ := by
    have := readBytes_writeBytes_self hw2
    rwa [cfg.rebind_hw_len] at this
  have hhw3 : readBytes f3 6 6 = some cfg.rebind_src_hw_address_ := by
    rw [readBytes_congr (fun k hk =>
      readByte_writeBytes_out hw3 (by have := cfg.gw_hw_len; omega))]
    exact hhw2
  have hhwg : readBytes g 6 6 = some cfg.rebind_src_hw_address_ := by
    rw [readBytes_congr (fun k hk => hgout (6 + k) (by omega) (by omega) (by omega))]
    exact hhw3
  have hgw3 : readBytes f3 0 6 = some cfg.rebind_gw_hw_address_ := by
    have := readBytes_writeBytes_self hw3
    rw [cfg.gw_hw_len] at this
    simpa using this
  have hgwg : readBytes g 0 6 = some cfg.rebind_gw_hw_address_ := by
    rw [readBytes_congr (fun k hk => hgout (0 + k) (by omega) (by omega) (by omega))]
    exact hgw3
  exact ⟨g, hclassify, hipg, hhwg, hgwg, htcpv, hipv, by omega⟩

/-! ## Forward evaluation lemmas for the ingress classifier -/

theorem classify_ingress_pass_nonip {cfg : RebindConfig} {f : Frame} {hp : Nat}
    (h12 : read16 f 12 = some hp) (hne : hp ≠ ETH_P_IP) :
    classify_ingress cfg f = some (PacketAction.pass, f) := by
  simp [classify_ingress, h12, hne]

theorem classify_ingress_pass_dst {cfg : RebindConfig} {f : Frame} {d : List Nat}
    (h12 : read16 f 12 = some ETH_P_IP)
    (h30 : readBytes f 30 4 = some d) (hd : d ≠ cfg.rebind_src_ip_address_) :
    classify_ingress cfg f = some (PacketAction.pass, f) := by
  simp [classify_ingress, h12, h30, hd]

theorem classify_ingress_pass_proto {cfg : RebindConfig} {f : Frame} {pr : Nat}
    (h12 : read16 f 12 = some ETH_P_IP)
    (h30 : readBytes f 30 4 = some cfg.rebind_src_ip_address_)
    (h23 : readByte f 23 = some pr)
    (hu : pr ≠ IPPROTO_UDP) (ht : pr ≠ IPPROTO_TCP) :
    classify_ingress cfg f = some (PacketAction.pass, f) := by
  simp [classify_ingress, h12, h30, h23, hu, ht]

/-- The ingress UDP rebind path: a UDP frame addressed to the rebind
    address is Routed with no attribution check; afterwards the IP
    destination is the default address, the Ethernet destination MAC the
    default adapter's MAC, the Ethernet source MAC is untouched, and both
    checksums validate. -/
theorem classify_ingress_udp_route {cfg : RebindConfig} {f : Frame} {ihl udpLen : Nat}
    (h12 : read16 f 12 = some ETH_P_IP)
    (h30 : readBytes f 30 4 = some cfg.rebind_src_ip_address_)
    (h23 : readByte f 23 = some IPPROTO_UDP)
    (hihl : ip_hl f = some ihl) (h5 : 5 ≤ ihl)
    (hulen : read16 f (14 + 4 * ihl + 4) = some udpLen) (h8 : 8 ≤ udpLen)
    (hfit : 14 + 4 * ihl + udpLen ≤ f.length) :
    ∃ f', classify_ingress cfg f = some (PacketAction.route, f') ∧
      readBytes f' 30 4 = some cfg.default_src_ip_address_ ∧
      readBytes f' 0 6 = some cfg.default_src_hw_address_ ∧
      readBytes f' 6 6 = readBytes f 6 6 ∧
      udpChecksumValid f' ∧ ipChecksumValid f' ∧ f'.length = f.length := by
  obtain ⟨f1, hw1⟩ : ∃ z, writeBytes f 30 cfg.default_src_ip_address_ = some z :=
    ⟨_, writeBytes_some (by have := cfg.default_ip_len; omega)⟩
  have hl1 : f1.length = f.length := writeBytes_length hw1
  obtain ⟨f2, hw2⟩ : ∃ z, writeBytes f1 0 cfg.default_src_hw_address_ = some z :=
    ⟨_, writeBytes_some (by have := cfg.default_hw_len; omega)⟩
  have hl2 : f2.length = f1.length := writeBytes_length hw2
  have hout2 : ∀ j, (6 ≤ j ∧ j < 30) ∨ 34 ≤ j → readByte f2 j = readByte f j := by
    intro j hj
    rw [readByte_writeBytes_out hw2 (by have := cfg.default_hw_len; omega),
      readByte_writeBytes_out hw1 (by have := cfg.default_ip_len; omega)]
  have ehl2 : ip_hl f2 = some ihl := (ip_hl_congr (hout2 14 (by omega))).trans hihl
  have hulen2 : read16 f2 (14 + 4 * ihl + 4) = some udpLen := by
    rw [read16_congr (hout2 _ (by omega)) (hout2 _ (by omega))]
    exact hulen
  obtain ⟨f3, g, hr1, hr2, hudpv, hipv, hgl, hgout⟩ :=
    udp_ip_recalc_chain ehl2 h5 hulen2 h8 (by omega)
  have hclassify : classify_ingress cfg f = some (PacketAction.route, g) := by
    simp [classify_ingress, h12, h30, h23, hw1, hw2, hr1, hr2]
  have hip1 : readBytes f1 30 4 = some cfg.default_src_ip_address_ := by
    have := readBytes_writeBytes_self hw1
    rwa [cfg.default_ip_len] at this
  have hip2 : readBytes f2 30 4 = some cfg.default_src_ip_address_ := by
    rw [readBytes_congr (fun k hk =>
      readByte_writeBytes_out hw2 (by have := cfg.default_hw_len; omega))]
    exact hip1
  have hipg : readBytes g 30 4 = some cfg.default_src_ip_address_ := by
    rw [readBytes_congr (fun k hk => hgout (30 + k) (by omega) (by omega) (by omega))]
    exact hip2
  have hhw2 : readBytes f2 0 6 = some cfg.default_src_hw_address_ := by
    have := readBytes_writeBytes_self hw2
    rw [cfg.default_hw_len] at this
    simpa using this
  have hhwg : readBytes g 0 6 = some cfg.default_src_hw_address_ := by
    rw [readBytes_congr (fun k hk => hgout (0 + k) (by omega) (by omega) (by omega))]
    exact hhw2
  have hsrcg : readBytes g 6 6 = readBytes f 6 6 := by
    rw [readBytes_congr (fun k hk => hgout (6 + k) (by omega) (by omega) (by omega))]
    exact readBytes_congr fun k hk => hout2 (6 + k) (by omega)
  exact ⟨g, hclassify, hipg, hhwg, hsrcg, hudpv, hipv, by omega⟩

/-- The ingress TCP rebind path, analogous to `classify_ingress_udp_route`. -/
theorem classify_ingress_tcp_route {cfg : RebindConfig} {f : Frame} {ihl totLen : Nat}
    (h12 : read16 f 12 = some ETH_P_IP)
    (h30 : readBytes f 30 4 = some cfg.rebind_src_ip_address_)
    (h23 : readByte f 23 = some IPPROTO_TCP)
    (hihl : ip_hl f = some ihl) (h5 : 5 ≤ ihl)
    (htot : read16 f 16 = some totLen) (h18 : 4 * ihl + 18 ≤ totLen)
    (hfit : 14 + totLen ≤ f.length) :
    ∃ f', classify_ingress cfg f = some (PacketAction.route, f') ∧
      readBytes f' 30 4 = some cfg.default_src_ip_address_ ∧
      readBytes f' 0 6 = some cfg.default_src_hw_address_ ∧
      readBytes f' 6 6 = readBytes f 6 6 ∧
      tcpChecksumValid f' ∧ ipChecksumValid f' ∧ f'.length = f.length := by
  obtain ⟨f1, hw1⟩ : ∃ z, writeBytes f 30 cfg.default_src_ip_address_ = some z :=
    ⟨_, writeBytes_some (by have := cfg.default_ip_len; omega)⟩
  have hl1 : f1.length = f.length := writeBytes_length hw1
  obtain ⟨f2, hw2⟩ : ∃ z, writeBytes f1 0 cfg.default_src_hw_address_ = some z :=
    ⟨_, writeBytes_some (by have := cfg.default_hw_len; omega)⟩
  have hl2 : f2.length = f1.length := writeBytes_length hw2
  have hout2 : ∀ j, (6 ≤ j ∧ j < 30) ∨ 34 ≤ j → readByte f2 j = readByte f j := by
    intro j hj
    rw [readByte_writeBytes_out hw2 (by have := cfg.default_hw_len; omega),
      readByte_writeBytes_out hw1 (by have := cfg.default_ip_len; omega)]
  have ehl2 : ip_hl f2 = some ihl := (ip_hl_congr (hout2 14 (by omega))).trans hihl
  have htot2 : read16 f2 16 = some totLen := by
    rw [read16_congr (hout2 _ (by omega)) (hout2 _ (by omega))]
    exact htot
  obtain ⟨f3, g, hr1, hr2, htcpv, hipv, hgl, hgout⟩ :=
    tcp_ip_recalc_chain ehl2 h5 htot2 h18 (by omega)
  have hclassify : classify_ingress cfg f = some (PacketAction.route, g) := by
    simp [classify_ingress, h12, h30, h23, hw1, hw2, hr1, hr2, IPPROTO_TCP, IPPROTO_UDP]
  have hip1 : readBytes f1 30 4 = some cfg.default_src_ip_address_ := by
    have := readBytes_writeBytes_self hw1
    rwa [cfg.default_ip_len] at this
  have hip2 : readBytes f2 30 4 = some cfg.default_src_ip_address_ := by
    rw [readBytes_congr (fun k hk =>
      readByte_writeBytes_out hw2 (by have := cfg.default_hw_len; omega))]
    exact hip1
  have hipg : readBytes g 30 4 = some cfg.default_src_ip_address_ := by
    rw [readBytes_congr (fun k hk => hgout (30 + k) (by omega) (by omega) (by omega))]
    exact hip2
  have hhw2 : readBytes f2 0 6 = some cfg.default_src_hw_address_ := by
    have := readBytes_writeBytes_self hw2
    rw [cfg.default_hw_len] at this
    simpa using this
  have hhwg : readBytes g 0 6 = some cfg.default_src_hw_address_ := by
    rw [readBytes_congr (fun k hk => hgout (0 + k) (by omega) (by omega) (by omega))]
    exact hhw2
  have hsrcg : readBytes g 6 6 = readBytes f 6 6 := by
    rw [readBytes_congr (fun k hk => hgout (6 + k) (by omega) (by omega) (by omega))]
    exact readBytes_congr fun k hk => hout2 (6 + k) (by omega)
  exact ⟨g, hclassify, hipg, hhwg, hsrcg, htcpv, hipv, by omega⟩

/-! ## Inversion lemmas -/

theorem recalculateUDPChecksum_inv {f3 f4 : Frame} {ihl : Nat}
    (ehl : ip_hl f3 = some ihl) (h : recalculateUDPChecksum f3 = some f4) :
    ∃ c, writeBytes f3 (14 + 4 * ihl + 6) [c / 256, c % 256] = some f4 := by
  simp only [recalculateUDPChecksum, ehl, Option.some_bind] at h
  cases hc : computeUDPChecksum f3 with
  | none => rw [hc] at h; simp at h
  | some c =>
    rw [hc] at h
    simp only [Option.some_bind] at h
    exact ⟨c, h⟩

theorem recalculateTCPChecksum_inv {f3 f4 : Frame} {ihl : Nat}
    (ehl : ip_hl f3 = some ihl) (h : recalculateTCPChecksum f3 = some f4) :
    ∃ c, writeBytes f3 (14 + 4 * ihl + 16) [c / 256, c % 256] = some f4 := by
  simp only [recalculateTCPChecksum, ehl, Option.some_bind] at h
  cases hc : computeTCPChecksum f3 with
  | none => rw [hc] at h; simp at h
  | some c =>
    rw [hc] at h
    simp only [Option.some_bind] at h
    exact ⟨c, h⟩

theorem recalculateIPChecksum_inv {f4 g : Frame}
    (h : recalculateIPChecksum f4 = some g) :
    ∃ c, writeBytes f4 24 [c / 256, c % 256] = some g := by
  simp only [recalculateIPChecksum] at h
  cases hc : computeIPChecksum f4 with
  | none => rw [hc] at h; simp at h
  | some c =>
    rw [hc] at h
    simp only [Option.some_bind] at h
    exact ⟨c, h⟩

/-- Reads of the rewritten egress frame: the five stores of the egress
    rebind path leave the ethertype untouched and (for a plausible header
    length) leave the rewritten source address in place. -/
theorem route_output_reads {cfg : RebindConfig} {f f1 f2 f3 f4 g : Frame}
    {ihl c ci w : Nat}
    (hw1 : writeBytes f 26 cfg.rebind_src_ip_address_ = some f1)
    (hw2 : writeBytes f1 6 cfg.rebind_src_hw_address_ = some f2)
    (hw3 : writeBytes f2 0 cfg.rebind_gw_hw_address_ = some f3)
    (hw4 : writeBytes f3 w [c / 256, c % 256] = some f4)
    (hw5 : writeBytes f4 24 [ci / 256, ci % 256] = some g)
    (hwge : 14 + 4 * ihl + 6 ≤ w) :
    read16 g 12 = read16 f 12 ∧
    (3 ≤ ihl → readBytes g 26 4 = some cfg.rebind_src_ip_address_) := by
  have hout45 : ∀ j, j < 24 ∧ j < w ∨ 26 ≤ j ∧ j < w → readByte g j = readByte f4 j ∧
      readByte f4 j = readByte f3 j := by
    intro j hj
    constructor
    · exact readByte_writeBytes_out hw5 (by simp; omega)
    · exact readByte_writeBytes_out hw4 (by simp; omega)
  constructor
  · apply read16_congr
    · have h45 := hout45 12 (by omega)
      rw [h45.1, h45.2]
      rw [readByte_writeBytes_out hw3 (by have := cfg.gw_hw_len; omega),
        readByte_writeBytes_out hw2 (by have := cfg.rebind_hw_len; omega),
        readByte_writeBytes_out hw1 (by have := cfg.rebind_ip_len; omega)]
    · have h45 := hout45 13 (by omega)
      rw [h45.1, h45.2]
      rw [readByte_writeBytes_out hw3 (by have := cfg.gw_hw_len; omega),
        readByte_writeBytes_out hw2 (by have := cfg.rebind_hw_len; omega),
        readByte_writeBytes_out hw1 (by have := cfg.rebind_ip_len; omega)]
  · intro h3
    have hstep : readBytes g 26 4 = readBytes f3 26 4 := by
      apply readBytes_congr
      intro k hk
      have h45 := hout45 (26 + k) (by omega)
      rw [h45.1, h45.2]
    rw [hstep,
      readBytes_congr (fun k hk =>
        readByte_writeBytes_out hw3 (by have := cfg.gw_hw_len; omega)),
      readBytes_congr (fun k hk =>
        readByte_writeBytes_out hw2 (by have := cfg.rebind_hw_len; omega))]
    have := readBytes_writeBytes_self hw1
    rwa [cfg.rebind_ip_len] at this

/-- Full case analysis of the egress classifier: every produced verdict is
    Pass (with the frame unchanged) or Route (for an IPv4 TCP/UDP frame
    from the default source address, with the rewritten frame keeping the
    IPv4 ethertype and, for a plausible header length, carrying the rebind
    source address). -/
theorem classify_egress_inv {cfg : RebindConfig} {env : ProcessLookup} {f : Frame}
    {r : PacketAction × Frame × List TableAction}
    (h : classify_egress cfg env f = some r) :
    (r.1 = PacketAction.pass ∧ r.2.1 = f) ∨
    (r.1 = PacketAction.route ∧ read16 f 12 = some ETH_P_IP ∧
      readBytes f 26 4 = some cfg.default_src_ip_address_ ∧
      (readByte f 23 = some IPPROTO_UDP ∨ readByte f 23 = some IPPROTO_TCP) ∧
      read16 r.2.1 12 = some ETH_P_IP ∧
      ∀ ihl, ip_hl f = some ihl → 3 ≤ ihl →
        readBytes r.2.1 26 4 = some cfg.rebind_src_ip_address_) := by
  rw [classify_egress] at h
  cases h12 : read16 f 12 with
  | none => rw [h12] at h; simp at h
  | some hp =>
  rw [h12] at h
  simp only [Option.some_bind] at h
  by_cases hhp : hp = ETH_P_IP
  swap
  · rw [if_neg hhp] at h
    obtain rfl := (Option.some.inj h).symm
    exact Or.inl ⟨rfl, rfl⟩
  subst hhp
  rw [if_pos rfl] at h
  cases h26 : readBytes f 26 4 with
  | none => rw [h26] at h; simp at h
  | some s =>
  rw [h26] at h
  simp only [Option.some_bind] at h
  by_cases hs : s ≠ cfg.default_src_ip_address_
  · rw [if_pos hs] at h
    obtain rfl := (Option.some.inj h).symm
    exact Or.inl ⟨rfl, rfl⟩
  push_neg at hs
  subst hs
  rw [if_neg (fun hc => hc rfl)] at h
  cases h23 : readByte f 23 with
  | none => rw [h23] at h; simp at h
  | some pr =>
  rw [h23] at h
  simp only [Option.some_bind] at h
  by_cases hU : pr = IPPROTO_UDP
  · subst hU
    rw [if_pos rfl] at h
    cases hihl : ip_hl f with
    | none => rw [hihl] at h; simp at h
    | some ihl =>
    rw [hihl] at h
    simp only [Option.some_bind] at h
    cases hsp : read16 f (14 + 4 * ihl) with
    | none => rw [hsp] at h; simp at h
    | some sport =>
    rw [hsp] at h
    simp only [Option.some_bind] at h
    cases hres : resolve_process_for_udp env cfg.default_src_ip_address_ sport with
    | mk o tr =>
    rw [hres] at h
    simp only at h
    cases o with
    | none => simp at h
    | some p =>
    simp only [Option.some_bind] at h
    by_cases hm : wstr_contains p.name cfg.app_name_ = true
    swap
    · rw [if_neg hm] at h
      obtain rfl := (Option.some.inj h).symm
      exact Or.inl ⟨rfl, rfl⟩
    rw [if_pos hm] at h
    cases hw1 : writeBytes f 26 cfg.rebind_src_ip_address_ with
    | none => rw [hw1] at h; simp at h
    | some f1 =>
    rw [hw1] at h
    simp only [Option.some_bind] at h
    cases hw2 : writeBytes f1 6 cfg.rebind_src_hw_address_ with
    | none => rw [hw2] at h; simp at h
    | some f2 =>
    rw [hw2] at h
    simp only [Option.some_bind] at h
    cases hw3 : writeBytes f2 0 cfg.rebind_gw_hw_address_ with
    | none => rw [hw3] at h; simp at h
    | some f3 =>
    rw [hw3] at h
    simp only [Option.some_bind] at h
    cases hr1 : recalculateUDPChecksum f3 with
    | none => rw [hr1] at h; simp at h
    | some f4 =>
    rw [hr1] at h
    simp only [Option.some_bind] at h
    cases hr2 : recalculateIPChecksum f4 with
    | none => rw [hr2] at h; simp at h
    | some g =>
    rw [hr2] at h
    simp only [Option.map_some'] at h
    obtain rfl := (Option.some.inj h).symm
    right
    have hout3 : ∀ j, (12 ≤ j ∧ j < 26) ∨ 30 ≤ j → readByte f3 j = readByte f j := by
      intro j hj
      rw [readByte_writeBytes_out hw3 (by have := cfg.gw_hw_len; omega),
        readByte_writeBytes_out hw2 (by have := cfg.rebind_hw_len; omega),
        readByte_writeBytes_out hw1 (by have := cfg.rebind_ip_len; omega)]
    have ehl3 : ip_hl f3 = some ihl := (ip_hl_congr (hout3 14 (by omega))).trans hihl
    obtain ⟨c, hw4⟩ := recalculateUDPChecksum_inv ehl3 hr1
    obtain ⟨ci, hw5⟩ := recalculateIPChecksum_inv hr2
    have hro := route_output_reads hw1 hw2 hw3 hw4 hw5
      (le_refl (14 + 4 * ihl + 6))
    refine ⟨rfl, rfl, rfl, Or.inl rfl, hro.1.trans h12, ?_⟩
    intro ihl' hihl' h3
    obtain rfl : ihl' = ihl := (Option.some.inj hihl').symm
    exact hro.2 h3
  rw [if_neg hU] at h
  by_cases hT : pr = IPPROTO_TCP
  swap
  · rw [if_neg hT] at h
    obtain rfl := (Option.some.inj h).symm
    exact Or.inl ⟨rfl, rfl⟩
  subst hT
  rw [if_pos rfl] at h
  cases hihl : ip_hl f with
  | none => rw [hihl] at h; simp at h
  | some ihl =>
  rw [hihl] at h
  simp only [Option.some_bind] at h
  cases hsp : read16 f (14 + 4 * ihl) with
  | none => rw [hsp] at h; simp at h
  | some sport =>
  rw [hsp] at h
  simp only [Option.some_bind] at h
  cases hdp : read16 f (14 + 4 * ihl + 2) with
  | none => rw [hdp] at h; simp at h
  | some dport =>
  rw [hdp] at h
  simp only [Option.some_bind] at h
  cases h30 : readBytes f 30 4 with
  | none => rw [h30] at h; simp at h
  | some d =>
  rw [h30] at h
  simp only [Option.some_bind] at h
  cases hres : resolve_process_for_tcp env cfg.default_src_ip_address_ d sport dport with
  | mk o tr =>
  rw [hres] at h
  simp only at h
  cases o with
  | none => simp at h
  | some p =>
  simp only [Option.some_bind] at h
  by_cases hm : wstr_contains p.name cfg.app_name_ = true
  swap
  · rw [if_neg hm] at h
    obtain rfl := (Option.some.inj h).symm
    exact Or.inl ⟨rfl, rfl⟩
  rw [if_pos hm] at h
  cases hw1 : writeBytes f 26 cfg.rebind_src_ip_address_ with
  | none => rw [hw1] at h; simp at h
  | some f1 =>
  rw [hw1] at h
  simp only [Option.some_bind] at h
  cases hw2 : writeBytes f1 6 cfg.rebind_src_hw_address_ with
  | none => rw [hw2] at h; simp at h
  | some f2 =>
  rw [hw2] at h
  simp only [Option.some_bind] at h
  cases hw3 : writeBytes f2 0 cfg.rebind_gw_hw_address_ with
  | none => rw [hw3] at h; simp at h
  | some f3 =>
  rw [hw3] at h
  simp only [Option.some_bind] at h
  cases hr1 : recalculateTCPChecksum f3 with
  | none => rw [hr1] at h; simp at h
  | some f4 =>
  rw [hr1] at h
  simp only [Option.some_bind] at h
  cases hr2 : recalculateIPChecksum f4 with
  | none => rw [hr2] at h; simp at h
  | some g =>
  rw [hr2] at h
  simp only [Option.map_some'] at h
  obtain rfl := (Option.some.inj h).symm
  right
  have hout3 : ∀ j, (12 ≤ j ∧ j < 26) ∨ 30 ≤ j → readByte f3 j = readByte f j := by
    intro j hj
    rw [readByte_writeBytes_out hw3 (by have := cfg.gw_hw_len; omega),
      readByte_writeBytes_out hw2 (by have := cfg.rebind_hw_len; omega),
      readByte_writeBytes_out hw1 (by have := cfg.rebind_ip_len; omega)]
  have ehl3 : ip_hl f3 = some ihl := (ip_hl_congr (hout3 14 (by omega))).trans hihl
  obtain ⟨c, hw4⟩ := recalculateTCPChecksum_inv ehl3 hr1
  obtain ⟨ci, hw5⟩ := recalculateIPChecksum_inv hr2
  have hro := route_output_reads hw1 hw2 hw3 hw4 hw5
    (by omega : 14 + 4 * ihl + 6 ≤ 14 + 4 * ihl + 16)
  refine ⟨rfl, rfl, rfl, Or.inr rfl, hro.1.trans h12, ?_⟩
  intro ihl' hihl' h3
  obtain rfl : ihl' = ihl := (Option.some.inj hihl').symm
  exact hro.2 h3

/-- Full case analysis of the ingress classifier: every produced verdict is
    Pass (frame unchanged) or Route (IPv4 TCP/UDP frame addressed to the
    rebind address). -/
theorem classify_ingress_inv {cfg : RebindConfig} {f : Frame}
    {r : PacketAction × Frame} (h : classify_ingress cfg f = some r) :
    (r.1 = PacketAction.pass ∧ r.2 = f) ∨
    (r.1 = PacketAction.route ∧ read16 f 12 = some ETH_P_IP ∧
      readBytes f 30 4 = some cfg.rebind_src_ip_address_ ∧
      (readByte f 23 = some IPPROTO_UDP ∨ readByte f 23 = some IPPROTO_TCP)) := by
  rw [classify_ingress] at h
  cases h12 : read16 f 12 with
  | none => rw [h12] at h; simp at h
  | some hp =>
  rw [h12] at h
  simp only [Option.some_bind] at h
  by_cases hhp : hp = ETH_P_IP
  swap
  · rw [if_neg hhp] at h
    obtain rfl := (Option.some.inj h).symm
    exact Or.inl ⟨rfl, rfl⟩
  subst hhp
  rw [if_pos rfl] at h
  cases h30 : readBytes f 30 4 with
  | none => rw [h30] at h; simp at h
  | some d =>
  rw [h30] at h
  simp only [Option.some_bind] at h
  by_cases hd : d ≠ cfg.rebind_src_ip_address_
  · rw [if_pos hd] at h
    obtain rfl := (Option.some.inj h).symm
    exact Or.inl ⟨rfl, rfl⟩
  push_neg at hd
  subst hd
  rw [if_neg (fun hc => hc rfl)] at h
  cases h23 : readByte f 23 with
  | none => rw [h23] at h; simp at h
  | some pr =>
  rw [h23] at h
  simp only [Option.some_bind] at h
  by_cases hUT : pr = IPPROTO_UDP ∨ pr = IPPROTO_TCP
  swap
  · rw [if_neg hUT] at h
    obtain rfl := (Option.some.inj h).symm
    exact Or.inl ⟨rfl, rfl⟩
  rw [if_pos hUT] at h
  cases hw1 : writeBytes f 30 cfg.default_src_ip_address_ with
  | none => rw [hw1] at h; simp at h
  | some f1 =>
  rw [hw1] at h
  simp only [Option.some_bind] at h
  cases hw2 : writeBytes f1 0 cfg.default_src_hw_address_ with
  | none => rw [hw2] at h; simp at h
  | some f2 =>
  rw [hw2] at h
  simp only [Option.some_bind] at h
  cases hr1 : (if pr = IPPROTO_UDP then recalculateUDPChecksum f2
      else recalculateTCPChecksum f2) with
  | none => rw [hr1] at h; simp at h
  | some f3 =>
  rw [hr1] at h
  simp only [Option.some_bind] at h
  cases hr2 : recalculateIPChecksum f3 with
  | none => rw [hr2] at h; simp at h
  | some g =>
  rw [hr2] at h
  simp only [Option.map_some'] at h
  obtain rfl := (Option.some.inj h).symm
  right
  refine ⟨rfl, rfl, rfl, ?_⟩
  rcases hUT with hUT | hUT
  · exact Or.inl (by rw [hUT])
  · exact Or.inr (by rw [hUT])

/-! ## A concrete session (spec §8: default 10.0.0.5 / MAC AA, rebind
    10.0.0.9 / MAC BB, gateway MAC CC, application "vpnclient.exe") -/

/-- Concrete configuration for witnesses and counterexamples. -/
def cfg0 : RebindConfig :=
  ⟨['v', 'p', 'n', 'c', 'l', 'i', 'e', 'n', 't', '.', 'e', 'x', 'e'],
   [187, 187, 187, 187, 187, 187],
   [170, 170, 170, 170, 170, 170],
   [204, 204, 204, 204, 204, 204],
   [10, 0, 0, 9],
   [10, 0, 0, 5],
   rfl, rfl, rfl, rfl, rfl⟩

/-- The owning process `C:\apps\vpnclient.exe`. -/
def p0 : NetworkProcess :=
  ⟨['C', ':', '\\', 'a', 'p', 'p', 's', '\\', 'v', 'p', 'n', 'c', 'l', 'i', 'e',
    'n', 't', '.', 'e', 'x', 'e']⟩

/-- UDP local endpoint 10.0.0.5:5000. -/
def udpKey0 : UdpEndpointKey := ⟨[10, 0, 0, 5], 5000⟩

/-- TCP session 10.0.0.5:5000 -> 93.184.216.34:443. -/
def tcpKey0 : TcpSessionKey := ⟨[10, 0, 0, 5], [93, 184, 216, 34], 5000, 443⟩

/-- Connection table owning both concrete flows. -/
def env0 : ProcessLookup :=
  ⟨fun k => if k = tcpKey0 then some p0 else none,
   fun k => if k = tcpKey0 then some p0 else none,
   fun k => if k = udpKey0 then some p0 else none,
   fun k => if k = udpKey0 then some p0 else none⟩

/-- Connection table that never resolves any flow. -/
def envEmpty : ProcessLookup :=
  ⟨fun _ => none, fun _ => none, fun _ => none, fun _ => none⟩

/-- Trace of the single snapshot hit for the UDP flow. -/
def tr0 : List TableAction := [TableAction.lookupUdp udpKey0 false]

/-- Trace of the single snapshot hit for the TCP flow. -/
def trT0 : List TableAction := [TableAction.lookupTcp tcpKey0 false]

/-- Egress UDP frame: 10.0.0.5:5000 -> 93.184.216.34:53, 4 payload bytes. -/
def fr0 : Frame :=
  [1, 2, 3, 4, 5, 6, 7, 8, 9, 10, 11, 12, 8, 0,
   69, 0, 0, 32, 0, 0, 0, 0, 64, 17, 0, 0,
   10, 0, 0, 5, 93, 184, 216, 34,
   19, 136, 0, 53, 0, 12, 0, 0, 1, 2, 3, 4]

/-- Egress TCP frame: 10.0.0.5:5000 -> 93.184.216.34:443, 20-byte header. -/
def frT0 : Frame :=
  [1, 2, 3, 4, 5, 6, 7, 8, 9, 10, 11, 12, 8, 0,
   69, 0, 0, 40, 0, 0, 0, 0, 64, 6, 0, 0,
   10, 0, 0, 5, 93, 184, 216, 34,
   19, 136, 1, 187, 0, 0, 0, 1, 0, 0, 0, 0, 80, 24, 1, 0, 0, 0, 0, 0]

/-- 34-byte frame whose IPv4 header length field claims 15 words (60 bytes,
    exceeding the buffer) and whose source 10.0.0.99 is not the default
    address. -/
def frBad : Frame :=
  [1, 2, 3, 4, 5, 6, 7, 8, 9, 10, 11, 12, 8, 0,
   79, 0, 0, 60, 0, 0, 0, 0, 64, 17, 0, 0,
   10, 0, 0, 99, 93, 184, 216, 34]

/-- Same inconsistent header length, but sourced from the default address,
    so that processing continues into the out-of-bounds transport header. -/
def frBad2 : Frame :=
  [1, 2, 3, 4, 5, 6, 7, 8, 9, 10, 11, 12, 8, 0,
   79, 0, 0, 60, 0, 0, 0, 0, 64, 17, 0, 0,
   10, 0, 0, 5, 93, 184, 216, 34]

/-- A non-IPv4 (ARP) frame. -/
def frArp : Frame := [1, 2, 3, 4, 5, 6, 7, 8, 9, 10, 11, 12, 8, 6]

/-- Well-formed egress UDP frame from 10.0.0.7 (not the default address). -/
def frPass : Frame :=
  [1, 2, 3, 4, 5, 6, 7, 8, 9, 10, 11, 12, 8, 0,
   69, 0, 0, 20, 0, 0, 0, 0, 64, 17, 0, 0,
   10, 0, 0, 7, 93, 184, 216, 34]

/-- Egress ICMP (protocol 1) frame from the default address. -/
def frIcmp : Frame :=
  [1, 2, 3, 4, 5, 6, 7, 8, 9, 10, 11, 12, 8, 0,
   69, 0, 0, 20, 0, 0, 0, 0, 64, 1, 0, 0,
   10, 0, 0, 5, 93, 184, 216, 34]

/-- Ingress UDP frame: 93.184.216.34:53 -> 10.0.0.9:5000 (to the rebind
    address). -/
def frI0 : Frame :=
  [9, 9, 9, 9, 9, 9, 7, 7, 7, 7, 7, 7, 8, 0,
   69, 0, 0, 32, 0, 0, 0, 0, 64, 17, 0, 0,
   93, 184, 216, 34, 10, 0, 0, 9,
   0, 53, 19, 136, 0, 12, 0, 0, 5, 6, 7, 8]

/-- Ingress TCP frame: 93.184.216.34:443 -> 10.0.0.9:5000. -/
def frIT0 : Frame :=
  [9, 9, 9, 9, 9, 9, 7, 7, 7, 7, 7, 7, 8, 0,
   69, 0, 0, 40, 0, 0, 0, 0, 64, 6, 0, 0,
   93, 184, 216, 34, 10, 0, 0, 9,
   1, 187, 19, 136, 0, 0, 0, 1, 0, 0, 0, 0, 80, 24, 1, 0, 0, 0, 0, 0]

/-- Ingress ICMP frame addressed to the rebind address. -/
def frIcmpIn : Frame :=
  [9, 9, 9, 9, 9, 9, 7, 7, 7, 7, 7, 7, 8, 0,
   69, 0, 0, 20, 0, 0, 0, 0, 64, 1, 0, 0,
   93, 184, 216, 34, 10, 0, 0, 9]

/-- The rewritten frame the egress classifier produces for `fr0`. -/
def fr0_routed : Frame :=
  (Option.map (fun r => r.2.1) (classify_egress cfg0 env0 fr0)).getD []

/-! ## A concrete configuration input for the session-setup claims -/

/-- Router state before configuration. -/
def st0 : RouterState := ⟨0, 0, [], [], [], [], []⟩

/-- NDIS adapter matching the default interface. -/
def ndisA : NdisAdapter :=
  ⟨['e', 't', 'h', '0'], 0, 11, [170, 170, 170, 170, 170, 170], none⟩

/-- NDIS adapter matching the rebind interface. -/
def ndisB : NdisAdapter :=
  ⟨['e', 't', 'h', '1'], 0, 12, [187, 187, 187, 187, 187, 187], none⟩

/-- The NDIS interface list. -/
def ndis0 : List NdisAdapter := [ndisA, ndisB]

/-- Default adapter info carrying unicast address 10.0.0.5. -/
def infoA : NetworkAdapterInfo :=
  ⟨['e', 't', 'h', '0'], 6, [⟨2, [10, 0, 0, 5], []⟩], []⟩

/-- Rebind adapter info carrying the SAME unicast address 10.0.0.5. -/
def infoB : NetworkAdapterInfo :=
  ⟨['e', 't', 'h', '1'], 6, [⟨2, [10, 0, 0, 5], []⟩],
   [⟨2, [10, 0, 0, 1], [204, 204, 204, 204, 204, 204]⟩]⟩

/-! ## Claim theorems -/

/-- `true` unless the verdict is Drop. -/
def verdictOk (v : PacketAction) : Bool :=
  match v with
  | PacketAction.drop => false
  | _ => true

/-- The egress entry point never produces the Drop verdict on this frame
    (either it passes/routes, or the computation aborts on an
    out-of-bounds access). -/
def egressNeverDrops (cfg : RebindConfig) (env : ProcessLookup) (f : Frame) : Bool :=
  match classify_egress cfg env f with
  | none => true
  | some r => verdictOk r.1

/-- The ingress entry point never produces the Drop verdict on this frame. -/
def ingressNeverDrops (cfg : RebindConfig) (f : Frame) : Bool :=
  match classify_ingress cfg f with
  | none => true
  | some r => verdictOk r.1

/-- C1 (counterexample): a 34-byte frame with an Ethernet header, an IPv4
    header claiming a 60-byte header length (exceeding the buffer), and a
    source that is not the default address receives the verdict Pass, not
    Drop — refuting "whose headers cannot be parsed ... returns Drop,
    never Pass". -/
theorem C1_inconsistent_header_passes :
    ip_hl frBad = some 15 ∧ frBad.length = 34 ∧
    classify_egress cfg0 env0 frBad = some (PacketAction.pass, frBad, []) := by
  refine ⟨by decide, by decide, by decide⟩

/-- C1 (amended): the engine has no parse-failure handling and never
    returns Drop, in either direction; a frame with an inconsistent IPv4
    header length is either forwarded as Pass (when the address guard
    fails, see `C1_inconsistent_header_passes`) or triggers an
    out-of-bounds access with no verdict at all, as for `frBad2` below. -/
theorem C1_no_drop_verdict_amended :
    (∀ cfg env f, egressNeverDrops cfg env f = true) ∧
    (∀ cfg f, ingressNeverDrops cfg f = true) ∧
    classify_egress cfg0 env0 frBad2 = none := by
  refine ⟨?_, ?_, by decide⟩
  · intro cfg env f
    rw [egressNeverDrops]
    cases hr : classify_egress cfg env f with
    | none => rfl
    | some r =>
      rcases classify_egress_inv hr with ⟨h1, _⟩ | ⟨h1, _⟩ <;>
        simp [verdictOk, h1]
  · intro cfg f
    rw [ingressNeverDrops]
    cases hr : classify_ingress cfg f with
    | none => rfl
    | some r =>
      rcases classify_ingress_inv hr with ⟨h1, _⟩ | ⟨h1, _⟩ <;>
        simp [verdictOk, h1]

/-- C2: with a connection table that resolves nothing (miss before and
    after the refresh), the egress classifier does not complete with Pass:
    the unchecked dereference of the empty process pointer
    (`process->name` on a null `shared_ptr`) is undefined behavior,
    modelled as no verdict.  This holds on both the UDP and the TCP path
    of the concrete frames from the default address. -/
theorem C2_unresolved_owner_crash :
    classify_egress cfg0 envEmpty fr0 = none ∧
    classify_egress cfg0 envEmpty frT0 = none ∧
    resolve_process_for_udp envEmpty cfg0.default_src_ip_address_ 5000 =
      (none, [TableAction.lookupUdp udpKey0 false, TableAction.actualize false true,
        TableAction.lookupUdp udpKey0 true]) := by
  refine ⟨by decide, by decide, by decide⟩

/-- C3: egress classification and rewrite.  (a) An IPv4 frame whose source
    differs from the default address Passes.  (b) A UDP frame from the
    default address whose resolved owner matches the application name is
    Routed, and afterwards the IP source is the rebind address, the
    Ethernet source MAC the rebind adapter's MAC, the Ethernet destination
    MAC the gateway MAC, and the UDP checksum and then the IP header
    checksum hold the values recomputed from the rewritten frame.
    (c) The same for a TCP frame. -/
theorem C3_egress_rebind_spec (cfg : RebindConfig) (env : ProcessLookup) (f : Frame) :
    (∀ s, read16 f 12 = some ETH_P_IP → readBytes f 26 4 = some s →
      s ≠ cfg.default_src_ip_address_ →
      classify_egress cfg env f = some (PacketAction.pass, f, [])) ∧
    (∀ ihl sport udpLen p tr,
      read16 f 12 = some ETH_P_IP →
      readBytes f 26 4 = some cfg.default_src_ip_address_ →
      readByte f 23 = some IPPROTO_UDP →
      ip_hl f = some ihl → 5 ≤ ihl →
      read16 f (14 + 4 * ihl) = some sport →
      resolve_process_for_udp env cfg.default_src_ip_address_ sport = (some p, tr) →
      wstr_contains p.name cfg.app_name_ = true →
      read16 f (14 + 4 * ihl + 4) = some udpLen → 8 ≤ udpLen →
      14 + 4 * ihl + udpLen ≤ f.length →
      ∃ f', classify_egress cfg env f = some (PacketAction.route, f', tr) ∧
        readBytes f' 26 4 = some cfg.rebind_src_ip_address_ ∧
        readBytes f' 6 6 = some cfg.rebind_src_hw_address_ ∧
        readBytes f' 0 6 = some cfg.rebind_gw_hw_address_ ∧
        udpChecksumValid f' ∧ ipChecksumValid f' ∧ f'.length = f.length) ∧
    (∀ ihl sport dport totLen d p tr,
      read16 f 12 = some ETH_P_IP →
      readBytes f 26 4 = some cfg.default_src_ip_address_ →
      readByte f 23 = some IPPROTO_TCP →
      ip_hl f = some ihl → 5 ≤ ihl →
      read16 f (14 + 4 * ihl) = some sport →
      read16 f (14 + 4 * ihl + 2) = some dport →
      readBytes f 30 4 = some d →
      resolve_process_for_tcp env cfg.default_src_ip_address_ d sport dport =
        (some p, tr) →
      wstr_contains p.name cfg.app_name_ = true →
      read16 f 16 = some totLen → 4 * ihl + 18 ≤ totLen →
      14 + totLen ≤ f.length →
      ∃ f', classify_egress cfg env f = some (PacketAction.route, f', tr) ∧
        readBytes f' 26 4 = some cfg.rebind_src_ip_address_ ∧
        readBytes f' 6 6 = some cfg.rebind_src_hw_address_ ∧
        readBytes f' 0 6 = some cfg.rebind_gw_hw_address_ ∧
        tcpChecksumValid f' ∧ ipChecksumValid f' ∧ f'.length = f.length) := by
  refine ⟨?_, ?_, ?_⟩
  · intro s h12 h26 hs
    exact classify_egress_pass_src h12 h26 hs
  · intro ihl sport udpLen p tr h12 h26 h23 hihl h5 hsport hres hmatch hulen h8 hfit
    exact classify_egress_udp_route h12 h26 h23 hihl h5 hsport hres hmatch hulen h8 hfit
  · intro ihl sport dport totLen d p tr h12 h26 h23 hihl h5 hsport hdport h30 hres
      hmatch htot h18 hfit
    exact classify_egress_tcp_route h12 h26 h23 hihl h5 hsport hdport h30 hres hmatch
      htot h18 hfit

/-- C3 (witness): the three conjuncts applied at the concrete session:
    `frPass` (source 10.0.0.7) Passes, `fr0` (UDP) and `frT0` (TCP) from
    10.0.0.5 owned by `C:\apps\vpnclient.exe` are Routed with the asserted
    rewrites. -/
theorem C3_egress_rebind_spec_witness :
    classify_egress cfg0 env0 frPass = some (PacketAction.pass, frPass, []) ∧
    (∃ f', classify_egress cfg0 env0 fr0 = some (PacketAction.route, f', tr0) ∧
      readBytes f' 26 4 = some cfg0.rebind_src_ip_address_ ∧
      readBytes f' 6 6 = some cfg0.rebind_src_hw_address_ ∧
      readBytes f' 0 6 = some cfg0.rebind_gw_hw_address_ ∧
      udpChecksumValid f' ∧ ipChecksumValid f' ∧ f'.length = fr0.length) ∧
    (∃ f', classify_egress cfg0 env0 frT0 = some (PacketAction.route, f', trT0) ∧
      readBytes f' 26 4 = some cfg0.rebind_src_ip_address_ ∧
      readBytes f' 6 6 = some cfg0.rebind_src_hw_address_ ∧
      readBytes f' 0 6 = some cfg0.rebind_gw_hw_address_ ∧
      tcpChecksumValid f' ∧ ipChecksumValid f' ∧ f'.length = frT0.length) :=
  ⟨(C3_egress_rebind_spec cfg0 env0 frPass).1 [10, 0, 0, 7] (by decide) (by decide)
    (by decide),
   (C3_egress_rebind_spec cfg0 env0 fr0).2.1 5 5000 12 p0 tr0 (by decide) (by decide)
    (by decide) (by decide) (by decide) (by decide) (by decide) (by decide) (by decide)
    (by decide) (by decide),
   (C3_egress_rebind_spec cfg0 env0 frT0).2.2 5 5000 443 40 [93, 184, 216, 34] p0 trT0
    (by decide) (by decide) (by decide) (by decide) (by decide) (by decide) (by decide)
    (by decide) (by decide) (by decide) (by decide) (by decide) (by decide)⟩

/-- C4: ingress classification and rewrite.  (a) A non-IPv4 frame Passes.
    (b) An IPv4 frame whose destination differs from the rebind address
    Passes.  (c) Any other IPv4 protocol Passes.  (d) A UDP frame to the
    rebind address is Routed with no attribution check; afterwards the IP
    destination is the default address, the Ethernet destination MAC the
    default adapter's MAC, the Ethernet source MAC unchanged, and the UDP
    and then IP checksums hold the recomputed values.  (e) The same for
    TCP. -/
theorem C4_ingress_rebind_spec (cfg : RebindConfig) (f : Frame) :
    (∀ hp, read16 f 12 = some hp → hp ≠ ETH_P_IP →
      classify_ingress cfg f = some (PacketAction.pass, f)) ∧
    (∀ d, read16 f 12 = some ETH_P_IP → readBytes f 30 4 = some d →
      d ≠ cfg.rebind_src_ip_address_ →
      classify_ingress cfg f = some (PacketAction.pass, f)) ∧
    (∀ pr, read16 f 12 = some ETH_P_IP →
      readBytes f 30 4 = some cfg.rebind_src_ip_address_ →
      readByte f 23 = some pr → pr ≠ IPPROTO_UDP → pr ≠ IPPROTO_TCP →
      classify_ingress cfg f = some (PacketAction.pass, f)) ∧
    (∀ ihl udpLen,
      read16 f 12 = some ETH_P_IP →
      readBytes f 30 4 = some cfg.rebind_src_ip_address_ →
      readByte f 23 = some IPPROTO_UDP →
      ip_hl f = some ihl → 5 ≤ ihl →
      read16 f (14 + 4 * ihl + 4) = some udpLen → 8 ≤ udpLen →
      14 + 4 * ihl + udpLen ≤ f.length →
      ∃ f', classify_ingress cfg f = some (PacketAction.route, f') ∧
        readBytes f' 30 4 = some cfg.default_src_ip_address_ ∧
        readBytes f' 0 6 = some cfg.default_src_hw_address_ ∧
        readBytes f' 6 6 = readBytes f 6 6 ∧
        udpChecksumValid f' ∧ ipChecksumValid f' ∧ f'.length = f.length) ∧
    (∀ ihl totLen,
      read16 f 12 = some ETH_P_IP →
      readBytes f 30 4 = some cfg.rebind_src_ip_address_ →
      readByte f 23 = some IPPROTO_TCP →
      ip_hl f = some ihl → 5 ≤ ihl →
      read16 f 16 = some totLen → 4 * ihl + 18 ≤ totLen →
      14 + totLen ≤ f.length →
      ∃ f', classify_ingress cfg f = some (PacketAction.route, f') ∧
        readBytes f' 30 4 = some cfg.default_src_ip_address_ ∧
        readBytes f' 0 6 = some cfg.default_src_hw_address_ ∧
        readBytes f' 6 6 = readBytes f 6 6 ∧
        tcpChecksumValid f' ∧ ipChecksumValid f' ∧ f'.length = f.length) := by
  refine ⟨?_, ?_, ?_, ?_, ?_⟩
  · intro hp h12 hne
    exact classify_ingress_pass_nonip h12 hne
  · intro d h12 h30 hd
    exact classify_ingress_pass_dst h12 h30 hd
  · intro pr h12 h30 h23 hu ht
    exact classify_ingress_pass_proto h12 h30 h23 hu ht
  · intro ihl udpLen h12 h30 h23 hihl h5 hulen h8 hfit
    exact classify_ingress_udp_route h12 h30 h23 hihl h5 hulen h8 hfit
  · intro ihl totLen h12 h30 h23 hihl h5 htot h18 hfit
    exact classify_ingress_tcp_route h12 h30 h23 hihl h5 htot h18 hfit

/-- C4 (witness): the five conjuncts at the concrete session: the ARP
    frame and the frame addressed to 93.184.216.34 Pass, the ICMP frame to
    the rebind address Passes, and the UDP/TCP frames to 10.0.0.9 are
    Routed with the asserted rewrites. -/
theorem C4_ingress_rebind_spec_witness :
    classify_ingress cfg0 frArp = some (PacketAction.pass, frArp) ∧
    classify_ingress cfg0 fr0 = some (PacketAction.pass, fr0) ∧
    classify_ingress cfg0 frIcmpIn = some (PacketAction.pass, frIcmpIn) ∧
    (∃ f', classify_ingress cfg0 frI0 = some (PacketAction.route, f') ∧
      readBytes f' 30 4 = some cfg0.default_src_ip_address_ ∧
      readBytes f' 0 6 = some cfg0.default_src_hw_address_ ∧
      readBytes f' 6 6 = readBytes frI0 6 6 ∧
      udpChecksumValid f' ∧ ipChecksumValid f' ∧ f'.length = frI0.length) ∧
    (∃ f', classify_ingress cfg0 frIT0 = some (PacketAction.route, f') ∧
      readBytes f' 30 4 = some cfg0.default_src_ip_address_ ∧
      readBytes f' 0 6 = some cfg0.default_src_hw_address_ ∧
      readBytes f' 6 6 = readBytes frIT0 6 6 ∧
      tcpChecksumValid f' ∧ ipChecksumValid f' ∧ f'.length = frIT0.length) :=
  ⟨(C4_ingress_rebind_spec cfg0 frArp).1 2054 (by decide) (by decide),
   (C4_ingress_rebind_spec cfg0 fr0).2.1 [93, 184, 216, 34] (by decide) (by decide)
    (by decide),
   (C4_ingress_rebind_spec cfg0 frIcmpIn).2.2.1 1 (by decide) (by decide) (by decide)
    (by decide) (by decide),
   (C4_ingress_rebind_spec cfg0 frI0).2.2.2.1 5 12 (by decide) (by decide) (by decide)
    (by decide) (by decide) (by decide) (by decide) (by decide),
   (C4_ingress_rebind_spec cfg0 frIT0).2.2.2.2 5 40 (by decide) (by decide) (by decide)
    (by decide) (by decide) (by decide) (by decide) (by decide)⟩

/-- C5 (counterexample): a configuration whose default and rebind adapters
    carry the same IPv4 address (10.0.0.5 on both `infoA` and `infoB`) is
    ACCEPTED: `set_ndis_interfaces_by_adapter_info` returns true and the
    resulting state holds the equal addresses — refuting "configuration is
    rejected whenever the default adapter's IP address equals the rebind
    adapter's IP address". -/
theorem C5_equal_addresses_accepted :
    infoA.unicast_address_list = infoB.unicast_address_list ∧
    (set_ndis_interfaces_by_adapter_info ndis0 st0 infoA infoB).1 = true ∧
    (set_ndis_interfaces_by_adapter_info ndis0 st0 infoA infoB).2.default_src_ip_address_
      = (set_ndis_interfaces_by_adapter_info ndis0 st0 infoA infoB).2.rebind_src_ip_address_ := by
  refine ⟨by decide, by decide, by decide⟩

/-- C5 (amended): the configure operation rejects exactly three
    conditions — no NDIS adapter found for the default interface, none for
    the rebind interface, or the rebind adapter being an NDISWAN link.
    Equality of the default and rebind addresses is never checked, so such
    a configuration succeeds (see `C5_equal_addresses_accepted`). -/
theorem C5_configuration_reject_iff (ndis : List NdisAdapter) (st : RouterState)
    (da ra : NetworkAdapterInfo) :
    (set_ndis_interfaces_by_adapter_info ndis st da ra).1 = false ↔
      (get_ndis_interface_by_adapter_info ndis da = none ∨
       get_ndis_interface_by_adapter_info ndis ra = none ∨
       ∃ j, get_ndis_interface_by_adapter_info ndis ra = some j ∧
         (ndisAt ndis j).wan_type ≠ ndis_wan_none) := by
  cases hda : get_ndis_interface_by_adapter_info ndis da with
  | none => simp [set_ndis_interfaces_by_adapter_info, hda]
  | some i =>
    cases hra : get_ndis_interface_by_adapter_info ndis ra with
    | none => simp [set_ndis_interfaces_by_adapter_info, hda, hra]
    | some j =>
      by_cases hw : (ndisAt ndis j).wan_type ≠ ndis_wan_none
      · simp only [set_ndis_interfaces_by_adapter_info, hda, hra, if_pos hw]
        constructor
        · intro _
          exact Or.inr (Or.inr ⟨j, rfl, hw⟩)
        · intro _
          trivial
      · simp only [set_ndis_interfaces_by_adapter_info, hda, hra, if_neg hw]
        push_neg at hw
        simp [hw]

/-- C6: the attribution policy.  The TCP resolver first consults the
    snapshot with the full 4-tuple key; on a hit the trace is that single
    unrefreshed lookup, on a miss it is exactly one `actualize(true,false)`
    (TCP table only) followed by one retried lookup — never more.  The UDP
    resolver behaves the same with the local-endpoint key (source address
    and source port only) and `actualize(false,true)` (UDP table only). -/
theorem C6_attribution_policy (env : ProcessLookup) (s d : List Nat) (sp dp : Nat) :
    resolve_process_for_tcp env s d sp dp =
      (if (env.lookupTcpSnapshot ⟨s, d, sp, dp⟩).isSome then
        env.lookupTcpSnapshot ⟨s, d, sp, dp⟩
       else env.lookupTcpRefreshed ⟨s, d, sp, dp⟩,
       if (env.lookupTcpSnapshot ⟨s, d, sp, dp⟩).isSome then
        [TableAction.lookupTcp ⟨s, d, sp, dp⟩ false]
       else
        [TableAction.lookupTcp ⟨s, d, sp, dp⟩ false, TableAction.actualize true false,
         TableAction.lookupTcp ⟨s, d, sp, dp⟩ true]) ∧
    resolve_process_for_udp env s sp =
      (if (env.lookupUdpSnapshot ⟨s, sp⟩).isSome then env.lookupUdpSnapshot ⟨s, sp⟩
       else env.lookupUdpRefreshed ⟨s, sp⟩,
       if (env.lookupUdpSnapshot ⟨s, sp⟩).isSome then
        [TableAction.lookupUdp ⟨s, sp⟩ false]
       else
        [TableAction.lookupUdp ⟨s, sp⟩ false, TableAction.actualize false true,
         TableAction.lookupUdp ⟨s, sp⟩ true]) := by
  constructor
  · cases hs : env.lookupTcpSnapshot ⟨s, d, sp, dp⟩ with
    | none => simp [resolve_process_for_tcp, hs]
    | some p => simp [resolve_process_for_tcp, hs]
  · cases hs : env.lookupUdpSnapshot ⟨s, sp⟩ with
    | none => simp [resolve_process_for_udp, hs]
    | some p => simp [resolve_process_for_udp, hs]

/-- C10: configuration is atomic on error — whenever
    `set_ndis_interfaces_by_adapter_info` reports failure, the router
    state is exactly the input state: every validation check precedes
    every assignment. -/
theorem C10_config_atomic_on_error (ndis : List NdisAdapter) (st : RouterState)
    (da ra : NetworkAdapterInfo)
    (h : (set_ndis_interfaces_by_adapter_info ndis st da ra).1 = false) :
    (set_ndis_interfaces_by_adapter_info ndis st da ra).2 = st := by
  cases hda : get_ndis_interface_by_adapter_info ndis da with
  | none => simp [set_ndis_interfaces_by_adapter_info, hda]
  | some i =>
    cases hra : get_ndis_interface_by_adapter_info ndis ra with
    | none => simp [set_ndis_interfaces_by_adapter_info, hda, hra]
    | some j =>
      by_cases hw : (ndisAt ndis j).wan_type ≠ ndis_wan_none
      · simp [set_ndis_interfaces_by_adapter_info, hda, hra, if_pos hw]
      · exfalso
        simp only [set_ndis_interfaces_by_adapter_info, hda, hra, if_neg hw] at h
        simp at h

/-- C10 (witness): with an empty NDIS interface list the lookup fails and
    the state is untouched. -/
theorem C10_config_atomic_on_error_witness :
    (set_ndis_interfaces_by_adapter_info [] st0 infoA infoB).2 = st0 :=
  C10_config_atomic_on_error [] st0 infoA infoB (by decide)

/-- C7: the process-match test is exactly case-sensitive contiguous
    substring containment of the configured application name in the
    resolved image name: (a) `wstr_contains` is substring containment,
    (b) in particular "app.exe" matches "myapp.exe" positively, and
    (c) on the egress UDP path with a resolved owner the frame is Routed
    if and only if this containment test succeeds. -/
theorem C7_substring_match_spec :
    (∀ hay needle : List Char, wstr_contains hay needle = true ↔ List.IsInfix needle hay) ∧
    wstr_contains ['m', 'y', 'a', 'p', 'p', '.', 'e', 'x', 'e']
      ['a', 'p', 'p', '.', 'e', 'x', 'e'] = true ∧
    (∀ (cfg : RebindConfig) (env : ProcessLookup) (f : Frame)
      (ihl sport udpLen : Nat) (p : NetworkProcess) (tr : List TableAction),
      read16 f 12 = some ETH_P_IP →
      readBytes f 26 4 = some cfg.default_src_ip_address_ →
      readByte f 23 = some IPPROTO_UDP →
      ip_hl f = some ihl → 5 ≤ ihl →
      read16 f (14 + 4 * ihl) = some sport →
      resolve_process_for_udp env cfg.default_src_ip_address_ sport = (some p, tr) →
      read16 f (14 + 4 * ihl + 4) = some udpLen → 8 ≤ udpLen →
      14 + 4 * ihl + udpLen ≤ f.length →
      ((∃ f', classify_egress cfg env f = some (PacketAction.route, f', tr)) ↔
        wstr_contains p.name cfg.app_name_ = true)) := by
  refine ⟨?_, by decide, ?_⟩
  · intro hay needle
    rw [wstr_contains]
    exact decide_eq_true_iff
  · intro cfg env f ihl sport udpLen p tr h12 h26 h23 hihl h5 hsport hres hulen h8 hfit
    constructor
    · rintro ⟨f', hf'⟩
      cases hb : wstr_contains p.name cfg.app_name_ with
      | true => rfl
      | false =>
        have hpass := classify_egress_pass_nomatch_udp h12 h26 h23 hihl hsport hres hb
        rw [hpass] at hf'
        simp at hf'
    · intro hb
      obtain ⟨f', hcl, _⟩ :=
        classify_egress_udp_route h12 h26 h23 hihl h5 hsport hres hb hulen h8 hfit
      exact ⟨f', hcl⟩

/-- C7 (witness): the Route-iff-containment equivalence at the concrete
    UDP scenario. -/
theorem C7_substring_match_spec_witness :
    (∃ f', classify_egress cfg0 env0 fr0 = some (PacketAction.route, f', tr0)) ↔
      wstr_contains p0.name cfg0.app_name_ = true :=
  C7_substring_match_spec.2.2 cfg0 env0 fr0 5 5000 12 p0 tr0 (by decide) (by decide)
    (by decide) (by decide) (by decide) (by decide) (by decide) (by decide) (by decide)
    (by decide)

/-- C8: in either direction a Pass verdict leaves the frame unchanged, a
    Route verdict occurs only for IPv4 frames whose protocol is TCP or
    UDP, and conversely every non-IPv4 frame and every IPv4 frame with any
    other protocol receives Pass with the frame unchanged. -/
theorem C8_pass_route_discipline (cfg : RebindConfig) (env : ProcessLookup) (f : Frame) :
    (∀ r, classify_egress cfg env f = some r → r.1 = PacketAction.pass → r.2.1 = f) ∧
    (∀ r, classify_egress cfg env f = some r → r.1 = PacketAction.route →
      read16 f 12 = some ETH_P_IP ∧
      (readByte f 23 = some IPPROTO_UDP ∨ readByte f 23 = some IPPROTO_TCP)) ∧
    (∀ r, classify_ingress cfg f = some r → r.1 = PacketAction.pass → r.2 = f) ∧
    (∀ r, classify_ingress cfg f = some r → r.1 = PacketAction.route →
      read16 f 12 = some ETH_P_IP ∧
      (readByte f 23 = some IPPROTO_UDP ∨ readByte f 23 = some IPPROTO_TCP)) ∧
    (∀ hp, read16 f 12 = some hp → hp ≠ ETH_P_IP →
      classify_egress cfg env f = some (PacketAction.pass, f, []) ∧
      classify_ingress cfg f = some (PacketAction.pass, f)) ∧
    (∀ pr s, read16 f 12 = some ETH_P_IP → readByte f 23 = some pr →
      pr ≠ IPPROTO_UDP → pr ≠ IPPROTO_TCP → readBytes f 26 4 = some s →
      classify_egress cfg env f = some (PacketAction.pass, f, [])) ∧
    (∀ pr d, read16 f 12 = some ETH_P_IP → readByte f 23 = some pr →
      pr ≠ IPPROTO_UDP → pr ≠ IPPROTO_TCP → readBytes f 30 4 = some d →
      classify_ingress cfg f = some (PacketAction.pass, f)) := by
  refine ⟨?_, ?_, ?_, ?_, ?_, ?_, ?_⟩
  · intro r hr hp
    rcases classify_egress_inv hr with ⟨_, h2⟩ | ⟨h1, _⟩
    · exact h2
    · rw [hp] at h1
      exact absurd h1 (by decide)
  · intro r hr hroute
    rcases classify_egress_inv hr with ⟨h1, _⟩ | ⟨_, h12, _, hproto, _⟩
    · rw [hroute] at h1
      exact absurd h1 (by decide)
    · exact ⟨h12, hproto⟩
  · intro r hr hp
    rcases classify_ingress_inv hr with ⟨_, h2⟩ | ⟨h1, _⟩
    · exact h2
    · rw [hp] at h1
      exact absurd h1 (by decide)
  · intro r hr hroute
    rcases classify_ingress_inv hr with ⟨h1, _⟩ | ⟨_, h12, _, hproto⟩
    · rw [hroute] at h1
      exact absurd h1 (by decide)
    · exact ⟨h12, hproto⟩
  · intro hp h12 hne
    exact ⟨classify_egress_pass_nonip h12 hne, classify_ingress_pass_nonip h12 hne⟩
  · intro pr s h12 h23 hu ht h26
    by_cases hs : s = cfg.default_src_ip_address_
    · subst hs
      exact classify_egress_pass_proto h12 h26 h23 hu ht
    · exact classify_egress_pass_src h12 h26 hs
  · intro pr d h12 h23 hu ht h30
    by_cases hd : d = cfg.rebind_src_ip_address_
    · subst hd
      exact classify_ingress_pass_proto h12 h30 h23 hu ht
    · exact classify_ingress_pass_dst h12 h30 hd

/-- C8 (witness): the discipline applied at concrete frames: the Pass
    result on `frPass` is unchanged, the Route on `fr0` implies IPv4
    TCP/UDP, and the ARP and ICMP frames Pass unchanged in both
    directions. -/
theorem C8_pass_route_discipline_witness :
    (PacketAction.pass, frPass, ([] : List TableAction)).2.1 = frPass ∧
    (read16 fr0 12 = some ETH_P_IP ∧
      (readByte fr0 23 = some IPPROTO_UDP ∨ readByte fr0 23 = some IPPROTO_TCP)) ∧
    classify_egress cfg0 env0 frArp = some (PacketAction.pass, frArp, []) ∧
    classify_ingress cfg0 frArp = some (PacketAction.pass, frArp) ∧
    classify_egress cfg0 env0 frIcmp = some (PacketAction.pass, frIcmp, []) ∧
    classify_ingress cfg0 frIcmpIn = some (PacketAction.pass, frIcmpIn) := by
  refine ⟨?_, ?_, ?_, ?_, ?_, ?_⟩
  · exact (C8_pass_route_discipline cfg0 env0 frPass).1
      (PacketAction.pass, frPass, []) (by decide) rfl
  · exact (C8_pass_route_discipline cfg0 env0 fr0).2.1
      (PacketAction.route, fr0_routed, tr0) (by decide) rfl
  · exact ((C8_pass_route_discipline cfg0 env0 frArp).2.2.2.2.1 2054
      (by decide) (by decide)).1
  · exact ((C8_pass_route_discipline cfg0 env0 frArp).2.2.2.2.1 2054
      (by decide) (by decide)).2
  · exact (C8_pass_route_discipline cfg0 env0 frIcmp).2.2.2.2.2.1 1 [10, 0, 0, 5]
      (by decide) (by decide) (by decide) (by decide) (by decide)
  · exact (C8_pass_route_discipline cfg0 env0 frIcmpIn).2.2.2.2.2.2 1 [10, 0, 0, 9]
      (by decide) (by decide) (by decide) (by decide) (by decide)

/-- C9: egress rewrite is non-reentrant — given distinct default and
    rebind addresses, a frame the egress classifier has Routed (whose IP
    source is now the rebind address) receives Pass, unchanged, on a
    second egress pass. -/
theorem C9_egress_non_reentrant (cfg : RebindConfig) (env : ProcessLookup)
    (f f' : Frame) (tr : List TableAction)
    (hne : cfg.default_src_ip_address_ ≠ cfg.rebind_src_ip_address_)
    (hroute : classify_egress cfg env f = some (PacketAction.route, f', tr))
    (hsrc : readBytes f' 26 4 = some cfg.rebind_src_ip_address_) :
    classify_egress cfg env f' = some (PacketAction.pass, f', []) := by
  rcases classify_egress_inv hroute with ⟨h1, _⟩ | ⟨_, _, _, _, h12g, _⟩
  · simp at h1
  · have h12' : read16 f' 12 = some ETH_P_IP := h12g
    exact classify_egress_pass_src h12' hsrc fun he => hne he.symm

/-- C9 (witness): re-running the egress classifier on the rewritten
    concrete UDP frame yields Pass with the frame unchanged. -/
theorem C9_egress_non_reentrant_witness :
    classify_egress cfg0 env0 fr0_routed = some (PacketAction.pass, fr0_routed, []) :=
  C9_egress_non_reentrant cfg0 env0 fr0 fr0_routed tr0 (by decide) (by decide)
    (by decide)
